import Mathlib

/-!
# Verification of the jump-front chat application front-end

This file gives a shallow embedding of the state-management and parsing
logic of the `jump-front` repository (a React chat/research application)
and proves or refutes the specification claims about it.

Embedded components, each translated from the TypeScript source:
* the chat store: `Message`, `Chat`, `ChatState`, `ChatAction`,
  `chatReducer` (the reducer of the chat context provider);
* the SSE research-stream block accumulator `processData` of `sendMessage`;
* the word-reveal loop of the synchronized-TTS `timeupdate` handler and
  `processCharacterTimestamps` from `ChatInput.tsx`;
* the `<BLOCKS_DATA>` / `<youtube-cards>` matching of `FastBlockRenderer`
  and `parseYouTubeCards`;
* the user-switch reload logic of `setCurrentUser` / `createUser`;
* the retry/backoff logic of `useLiveKit.ts`.

JavaScript `number` timestamps are modelled as `Nat`, audio times as `ℚ`.
External browser/library builtins (`JSON.parse`, `JSON.stringify`,
`marked`) are taken as opaque function parameters where they occur.
-/

namespace JumpFront

/-! ## Chat store data model (`part_001`, lines 3-122) -/

/-- `"user" | "ai"` message sender type. -/
inductive MsgType where
  | user
  | ai
deriving DecidableEq

/-- `"web" | "research"` (the non-null part of `ChatMode`). -/
inductive MsgMode where
  | web
  | research
deriving DecidableEq

/-- `type ChatMode = "web" | "research" | null`; `none` models `null`. -/
abbrev ChatMode := Option MsgMode

/-- `type Theme = "light" | "dark"`. -/
inductive Theme where
  | light
  | dark
deriving DecidableEq

/-- `Message` from the source.  Optional TS fields are `Option`s; `Date`
timestamps are modelled as `Nat` epoch milliseconds. -/
structure Message where
  id : String
  content : String
  type : MsgType
  timestamp : Nat
  mode : Option MsgMode := none
  isStreaming : Option Bool := none
  isCurrentlyGenerating : Option Bool := none
  page : Option Int := none
  chat_id : Option String := none
  hasAutoTTSPlayed : Option Bool := none
  isAutoTTSMessage : Option Bool := none
deriving DecidableEq

/-- `Chat` from the source. -/
structure Chat where
  id : String
  title : String
  messages : List Message
  createdAt : Nat
  updatedAt : Nat
  backendChatId : Option String := none
  hasUsedResearchMode : Bool
  page : Int
deriving DecidableEq

/-- `UserData` from the source. -/
structure UserData where
  name : String
  username : String
deriving DecidableEq

/-- The `pendingAutoTTSResponse` record of `ChatState`. -/
structure PendingAutoTTS where
  chatId : String
  content : String
  messageId : String
deriving DecidableEq

/-- `ChatState` from the source. -/
structure ChatState where
  chats : List Chat
  currentChatId : Option String
  currentChat : Option Chat
  theme : Theme
  sidebarCollapsed : Bool
  showDashboard : Bool
  userName : String
  currentUser : UserData
  isTyping : Bool
  currentMode : ChatMode
  showAurora : Bool
  isLiveMode : Bool
  loadingState : Option String
  currentPage : Int
  hasInitializedUser : Bool
  autoTTS : Bool
  pendingAutoTTSResponse : Option PendingAutoTTS := none
deriving DecidableEq

/-- `ChatAction` from the source, one constructor per action type. -/
inductive ChatAction where
  | CREATE_CHAT (chat : Chat)
  | SELECT_CHAT (chatId : String)
  | DELETE_CHAT (chatId : String)
  | ADD_MESSAGE (chatId : String) (message : Message)
  | UPDATE_MESSAGE (chatId : String) (messageId : String) (content : String)
  | SET_MESSAGE_STREAMING (chatId : String) (messageId : String) (isStreaming : Bool)
  | SET_CURRENTLY_GENERATING (chatId : String) (messageId : Option String)
  | SET_BACKEND_CHAT_ID (chatId : String) (backendChatId : String)
  | SET_RESEARCH_MODE_USED (chatId : String)
  | SET_THEME (theme : Theme)
  | TOGGLE_SIDEBAR
  | SET_DASHBOARD (showFlag : Bool)
  | SET_USER_NAME (name : String)
  | SET_CURRENT_USER (user : UserData)
  | SET_USER_INITIALIZED (initialized : Bool)
  | SET_TYPING (isTyping : Bool)
  | SET_MODE (mode : ChatMode)
  | TOGGLE_AURORA
  | TOGGLE_LIVE_MODE
  | SET_LOADING_STATE (loadingState : Option String)
  | SET_CURRENT_PAGE (page : Int)
  | LOAD_HISTORY (chats : List Chat)
  | TOGGLE_AUTO_TTS
  | MARK_MESSAGE_AUTO_TTS_PLAYED (chatId : String) (messageId : String)
  | HANDLE_AUTO_TTS_RESPONSE (chatId : String) (content : String) (messageId : String)
deriving DecidableEq

/-- `initialState` from the source. -/
def initialState : ChatState where
  chats := []
  currentChatId := none
  currentChat := none
  theme := .dark
  sidebarCollapsed := true
  showDashboard := false
  userName := "User"
  currentUser := { name := "User", username := "" }
  isTyping := false
  currentMode := none
  showAurora := false
  isLiveMode := false
  loadingState := none
  currentPage := 1
  hasInitializedUser := false
  autoTTS := false

/-- The recomputation of `currentChat` that every chat-updating reducer
case repeats verbatim:
`state.currentChatId === action.chatId ? updatedChats.find(...) || null : state.currentChat`. -/
def recomputedCurrentChat (state : ChatState) (chatId : String)
    (updatedChats : List Chat) : Option Chat :=
  if state.currentChatId == some chatId then
    updatedChats.find? (fun c => c.id == chatId)
  else state.currentChat

/-- `chatReducer` from the source.  `now` models the value of the
`new Date()` calls performed while handling the action. -/
def chatReducer (now : Nat) (state : ChatState) (action : ChatAction) : ChatState :=
  match action with
  | .CREATE_CHAT chat =>
    { state with
      chats := chat :: state.chats
      currentChatId := some chat.id
      currentChat := some chat
      showDashboard := false
      currentPage := chat.page }
  | .SELECT_CHAT chatId =>
    let chat := state.chats.find? (fun c => c.id == chatId)
    { state with
      currentChatId := some chatId
      currentChat := chat
      showDashboard := false
      currentPage := match chat with | some c => c.page | none => state.currentPage }
  | .DELETE_CHAT chatId =>
    let newChats := state.chats.filter (fun c => c.id != chatId)
    let isCurrentChat := state.currentChatId == some chatId
    { state with
      chats := newChats
      currentChatId := if isCurrentChat then none else state.currentChatId
      currentChat := if isCurrentChat then none else state.currentChat }
  | .ADD_MESSAGE chatId message =>
    let updatedChats := state.chats.map (fun chat =>
      if chat.id == chatId then
        { chat with
          messages := chat.messages ++ [message]
          updatedAt := now
          title := if chat.messages.length == 0
            then message.content.take 50 ++ "..." else chat.title }
      else chat)
    { state with
      chats := updatedChats
      currentChat := recomputedCurrentChat state chatId updatedChats }
  | .UPDATE_MESSAGE chatId messageId content =>
    let updatedChats := state.chats.map (fun chat =>
      if chat.id == chatId then
        { chat with
          messages := chat.messages.map (fun m =>
            if m.id == messageId then
              { m with content := content, timestamp := now }
            else m)
          updatedAt := now }
      else chat)
    { state with
      chats := updatedChats
      currentChat := recomputedCurrentChat state chatId updatedChats }
  | .SET_MESSAGE_STREAMING chatId messageId isStreaming =>
    let updatedChats := state.chats.map (fun chat =>
      if chat.id == chatId then
        { chat with
          messages := chat.messages.map (fun m =>
            if m.id == messageId then { m with isStreaming := some isStreaming } else m) }
      else chat)
    { state with
      chats := updatedChats
      currentChat := recomputedCurrentChat state chatId updatedChats }
  | .SET_CURRENTLY_GENERATING chatId messageId =>
    let updatedChats := state.chats.map (fun chat =>
      if chat.id == chatId then
        { chat with
          messages := chat.messages.map (fun m =>
            { m with isCurrentlyGenerating := some (match messageId with
                | some mid => m.id == mid
                | none => false) }) }
      else chat)
    { state with
      chats := updatedChats
      currentChat := recomputedCurrentChat state chatId updatedChats }
  | .SET_BACKEND_CHAT_ID chatId backendChatId =>
    let updatedChats := state.chats.map (fun chat =>
      if chat.id == chatId then { chat with backendChatId := some backendChatId }
      else chat)
    { state with
      chats := updatedChats
      currentChat := recomputedCurrentChat state chatId updatedChats }
  | .SET_RESEARCH_MODE_USED chatId =>
    let updatedChats := state.chats.map (fun chat =>
      if chat.id == chatId then { chat with hasUsedResearchMode := true }
      else chat)
    { state with
      chats := updatedChats
      currentChat := recomputedCurrentChat state chatId updatedChats }
  | .SET_THEME theme => { state with theme := theme }
  | .TOGGLE_SIDEBAR => { state with sidebarCollapsed := !state.sidebarCollapsed }
  | .SET_DASHBOARD showFlag => { state with showDashboard := showFlag }
  | .SET_USER_NAME name => { state with userName := name }
  | .SET_CURRENT_USER user =>
    { state with currentUser := user, userName := user.name }
  | .SET_USER_INITIALIZED initialized =>
    { state with hasInitializedUser := initialized }
  | .SET_TYPING isTyping => { state with isTyping := isTyping }
  | .SET_MODE mode => { state with currentMode := mode }
  | .TOGGLE_AURORA => { state with showAurora := !state.showAurora }
  | .TOGGLE_LIVE_MODE => { state with isLiveMode := !state.isLiveMode }
  | .SET_LOADING_STATE loadingState => { state with loadingState := loadingState }
  | .SET_CURRENT_PAGE page => { state with currentPage := page }
  | .LOAD_HISTORY chats =>
    { state with chats := chats, currentChatId := none, currentChat := none }
  | .TOGGLE_AUTO_TTS => { state with autoTTS := !state.autoTTS }
  | .MARK_MESSAGE_AUTO_TTS_PLAYED chatId messageId =>
    let updatedChats := state.chats.map (fun chat =>
      if chat.id == chatId then
        { chat with
          messages := chat.messages.map (fun m =>
            if m.id == messageId then { m with hasAutoTTSPlayed := some true } else m) }
      else chat)
    { state with
      chats := updatedChats
      currentChat := recomputedCurrentChat state chatId updatedChats }
  | .HANDLE_AUTO_TTS_RESPONSE chatId content messageId =>
    { state with
      pendingAutoTTSResponse :=
        some { chatId := chatId, content := content, messageId := messageId } }

/-- Fold a list of `(dispatch time, action)` pairs through the reducer. -/
def runActions (s : ChatState) (l : List (Nat × ChatAction)) : ChatState :=
  l.foldl (fun st p => chatReducer p.1 st p.2) s

/-! ## JavaScript string helpers -/

/-- JavaScript `String.prototype.trim()`: strip whitespace from both ends.
(`String.trim` of the Lean core library is extensionally the same but is
not kernel-reducible, so the list-level definition is used.) -/
def jsTrim (s : String) : String :=
  String.mk (((s.data.dropWhile Char.isWhitespace).reverse.dropWhile
    Char.isWhitespace).reverse)

/-! ## SSE stream-to-block accumulator (`sendMessage`, `part_001` 795-945)

`processData` mutates three closure variables: `currentTextContent`,
`orderedBlocks` and `backendChatId`.  The `text_chunk` case builds a
shallow copy `currentBlocks = [...orderedBlocks]`; when the last ordered
block is a text block it mutates that shared object in place (so
`orderedBlocks` changes too), otherwise it pushes a new text block onto
the copy only (so `orderedBlocks` is unchanged).  Both effects are
modelled exactly.  The `<BLOCKS_DATA>` string dispatched per event is the
serialization of the transient copy; the claims concern the accumulated
`orderedBlocks`, which is what the handler serializes into the final
message content. -/

/-- A content block: `{type:"text", content}` or the opaque image-block
object carried by an `image_complete` event (its `type` is `"image"`;
the payload string stands for its remaining fields). -/
inductive Block where
  | text (content : String)
  | image (payload : String)
deriving DecidableEq

/-- The SSE events parsed from `data: ` lines.  An `image_complete`
event's `content` is the image block sent by the backend; the payload
string stands for its fields. -/
inductive SSEEvent where
  | init (chat_id : Option String)
  | text_chunk (content : String)
  | image_loading (message : String)
  | image_complete (content : String)
  | complete
  | error (message : String)
  | fatal_error (message : String)
deriving DecidableEq

/-- The closure state of the stream-processing loop. -/
structure StreamState where
  currentTextContent : String
  orderedBlocks : List Block
  backendChatId : Option String
deriving DecidableEq

/-- Initial closure state (`currentTextContent = ""`, `orderedBlocks = []`,
`backendChatId = null`). -/
def initialStreamState : StreamState :=
  { currentTextContent := "", orderedBlocks := [], backendChatId := none }

/-- Is a block a text block (`block.type === "text"`)? -/
def Block.isText : Block → Bool
  | .text _ => true
  | .image _ => false

/-- One `processData(data)` call.  Returns the new closure state and the
boolean the function returns (`true` signals completion, which breaks the
line loop). -/
def processData (event : SSEEvent) (st : StreamState) : StreamState × Bool :=
  match event with
  | .init cid => ({ st with backendChatId := cid }, false)
  | .text_chunk c =>
    let cur := st.currentTextContent ++ c
    -- `currentBlocks = [...orderedBlocks]`: mutating the last (shared)
    -- text block updates `orderedBlocks`; pushing onto the copy does not.
    let blocks := match st.orderedBlocks.getLast? with
      | some b => if b.isText then st.orderedBlocks.dropLast ++ [Block.text cur]
                  else st.orderedBlocks
      | none => st.orderedBlocks
    ({ st with currentTextContent := cur, orderedBlocks := blocks }, false)
  | .image_loading _ => (st, false)
  | .image_complete p =>
    let st' :=
      if jsTrim st.currentTextContent != "" then
        { st with
          orderedBlocks := st.orderedBlocks ++ [Block.text st.currentTextContent]
          currentTextContent := "" }
      else st
    ({ st' with orderedBlocks := st'.orderedBlocks ++ [Block.image p] }, false)
  | .complete =>
    if jsTrim st.currentTextContent != "" then
      ({ st with orderedBlocks := st.orderedBlocks ++ [Block.text st.currentTextContent] }, true)
    else (st, true)
  | .error m =>
    ({ st with currentTextContent := st.currentTextContent ++ "\n\n⚠️ " ++ m }, false)
  | .fatal_error m =>
    ({ st with currentTextContent := st.currentTextContent ++ "\n\n⚠️ " ++ m }, true)

/-- Process a list of parsed events in order, stopping (like the
`if (isComplete) break;` in the line loop) at the first event for which
`processData` returns `true`. -/
def runStream : List SSEEvent → StreamState → StreamState
  | [], st => st
  | e :: rest, st =>
    let (st', stop) := processData e st
    if stop then st' else runStream rest st'

/-- Events allowed in the body of a well-formed stream (between `init`
and `complete`). -/
def isBodyEvent : SSEEvent → Bool
  | .text_chunk _ => true
  | .image_loading _ => true
  | .image_complete _ => true
  | _ => false

/-- The block list described by the claim (written from the spec, not the
code): consecutive `text_chunk` contents are coalesced into a single
trailing text block, each `image_complete` appends its image block after
the text received before it, and all streamed text is kept. -/
def specBlocks (acc : String) : List SSEEvent → List Block
  | [] => if acc == "" then [] else [Block.text acc]
  | .text_chunk c :: rest => specBlocks (acc ++ c) rest
  | .image_complete p :: rest =>
    (if acc == "" then [] else [Block.text acc]) ++ Block.image p :: specBlocks "" rest
  | _ :: rest => specBlocks acc rest

/-- Hypothesis under which the code agrees with `specBlocks`: at each flush
point (each `image_complete`, and the end of the body) the text
accumulated since the previous flush is either empty or not
whitespace-only. -/
def goodRuns (acc : String) : List SSEEvent → Bool
  | [] => acc == "" || jsTrim acc != ""
  | .text_chunk c :: rest => goodRuns (acc ++ c) rest
  | .image_complete _ :: rest => (acc == "" || jsTrim acc != "") && goodRuns "" rest
  | _ :: rest => goodRuns acc rest

/-! ## `sendMessage` final content assembly (`part_001` 946-1128)

The research branch awaits the GenAI stream and the parallel YouTube
recommendation fetch, then writes the final message content.  A GenAI
fetch rejection / non-OK status / missing stream throws into the inner
`catch`, which replaces the content with a fixed failure string (the
YouTube merge is inside the `try`, so nothing is appended in that case).
`JSON.stringify` is an external builtin and is a function parameter. -/

/-- The fixed failure string of the research branch's `catch`. -/
def researchApology : String := "⚠️ Failed to generate content. Please try again."

/-- The fixed apology string of the non-research `/query` branch's `catch`. -/
def queryApology : String :=
  "Sorry, I encountered an error while processing your request. Please make sure the backend server is running."

/-- Fallback when the stream produced neither blocks nor text. -/
def noContentWarning : String := "⚠️ No content received from the server."

/-- Content appended when the YouTube recommendation fetch rejected. -/
def ytUnavailable : String :=
  "\n\n## Related Videos\n\n⚠️ Video recommendations temporarily unavailable."

/-- The `youtubeContent` suffix: the warning on rejection, else the
`<youtube-cards>` wrapper around the serialized video payload (`payload`
stands for the `JSON.stringify({videos, remainingVideos})` string). -/
def youtubeContentSuffix : Option String → String
  | none => ytUnavailable
  | some payload => "\n\n<youtube-cards>" ++ payload ++ "</youtube-cards>"

/-- The `finalContent` computed after the stream ends: serialized blocks
if any, else the accumulated text if truthy, else a warning. -/
def researchStreamContent (stringifyBlocks : List Block → String)
    (events : List SSEEvent) : String :=
  let st := runStream events initialStreamState
  if st.orderedBlocks.length > 0 then
    "<BLOCKS_DATA>" ++ stringifyBlocks st.orderedBlocks ++ "</BLOCKS_DATA>"
  else if st.currentTextContent != "" then st.currentTextContent
  else noContentWarning

/-- Final content of the research-mode AI message.  `genai = none` models
a GenAI fetch rejection / non-OK response / unavailable stream (all throw
into the `catch`); `youtube = none` models a rejected YouTube fetch. -/
def researchFinalContent (stringifyBlocks : List Block → String)
    (genai : Option (List SSEEvent)) (youtube : Option String) : String :=
  match genai with
  | none => researchApology
  | some events =>
    researchStreamContent stringifyBlocks events ++ youtubeContentSuffix youtube

/-- Content extracted from a `/query` response:
`queryData.lesson[0].script` when present, else the default. -/
def queryResponseContent (lessonScript : Option String) : String :=
  match lessonScript with
  | some s => s
  | none => "No response received."

/-- Final content of the non-research AI message; `none` models a fetch
rejection or non-OK status (both throw into the `catch`). -/
def queryFinalContent : Option (Option String) → String
  | none => queryApology
  | some lessonScript => queryResponseContent lessonScript

/-! ## Synchronized-TTS word reveal (`ChatInput.tsx` 896-946)

`updateRevealedText` scans `wordTimestamps` from the front, recording the
last index whose `start` is `≤ currentTime` and breaking at the first
that is not.  Audio times are modelled as `ℚ`. -/

/-- A word-level timestamp entry (`{word, start, end}`; `end` is a Lean
keyword, so the field is named `stop`). -/
structure WordTimestamp where
  word : String
  start : ℚ
  stop : ℚ
deriving DecidableEq

/-- The `for` loop of `updateRevealedText`: `i` is the loop counter and
`acc` the current `revealUpToIndex`. -/
def revealLoop (currentTime : ℚ) : List WordTimestamp → Nat → Int → Int
  | [], _, acc => acc
  | w :: rest, i, acc =>
    if w.start ≤ currentTime then revealLoop currentTime rest (i + 1) (i : Int)
    else acc

/-- `revealUpToIndex` as computed by the handler (`-1` if no word has
started yet). -/
def revealUpToIndex (wordTimestamps : List WordTimestamp) (currentTime : ℚ) : Int :=
  revealLoop currentTime wordTimestamps 0 (-1)

/-! ## `processCharacterTimestamps` (`ChatInput.tsx` 1121-1146) -/

mutual
/-- JavaScript `text.split(/\s+/)` (split on whitespace runs; a leading
run yields a leading `""`, a trailing run a trailing `""`, and
`"".split` yields `[""]`).  `cur` holds the reversed chars of the word
being scanned. -/
def splitWsAux : List Char → List Char → List (List Char)
  | [], cur => [cur.reverse]
  | c :: rest, cur =>
    if c.isWhitespace then cur.reverse :: splitWsSkip rest
    else splitWsAux rest (c :: cur)

def splitWsSkip : List Char → List (List Char)
  | [] => [[]]
  | c :: rest => if c.isWhitespace then splitWsSkip rest else splitWsAux rest [c]
end

/-- `text.split(/\s+/)` on a string. -/
def jsSplitWhitespace (s : String) : List (List Char) := splitWsAux s.data []

/-- JavaScript `arr[i] || 0` for a possibly-missing rational array entry
(an out-of-range access gives `undefined`, and both `undefined` and `0`
are falsy). -/
def jsIndexOrZero (l : List ℚ) (i : Nat) : ℚ :=
  match l.get? i with
  | some v => if v == 0 then 0 else v
  | none => 0

/-- JavaScript `arr[i] || d` with a possibly negative index `i`
(`arr[-1]` is `undefined`); a stored `0` is falsy and also yields `d`. -/
def jsIndexOrDefault (l : List ℚ) (i : Int) (d : ℚ) : ℚ :=
  match (if i < 0 then none else l.get? i.toNat) with
  | some v => if v == 0 then d else v
  | none => d

/-- The loop body of `processCharacterTimestamps`: `charIndex` advances by
`word.length + 1` per word. -/
def processWords (charStartTimes charEndTimes : List ℚ) :
    List (List Char) → Nat → List WordTimestamp
  | [], _ => []
  | w :: rest, charIndex =>
    let wordStart := charIndex
    let wordEnd : Int := (charIndex : Int) + w.length - 1
    let startTime := jsIndexOrZero charStartTimes wordStart
    let endTime := jsIndexOrDefault charEndTimes wordEnd (startTime + 1/2)
    { word := String.mk w, start := startTime, stop := endTime } ::
      processWords charStartTimes charEndTimes rest (charIndex + w.length + 1)

/-- `processCharacterTimestamps(alignment, text)` from the source. -/
def processCharacterTimestamps (charStartTimes charEndTimes : List ℚ)
    (text : String) : List WordTimestamp :=
  processWords charStartTimes charEndTimes (jsSplitWhitespace text) 0

mutual
/-- The tokenizer described by the claim: the whitespace-separated words
of the original text together with their true character start indices. -/
def wordsWithIndex : List Char → Nat → List (List Char × Nat)
  | [], _ => []
  | c :: rest, i =>
    if c.isWhitespace then wordsWithIndex rest (i + 1)
    else scanWord rest [c] i (i + 1)

def scanWord : List Char → List Char → Nat → Nat → List (List Char × Nat)
  | [], acc, ws, _ => [(acc.reverse, ws)]
  | c :: rest, acc, ws, j =>
    if c.isWhitespace then (acc.reverse, ws) :: wordsWithIndex rest (j + 1)
    else scanWord rest (c :: acc) ws (j + 1)
end

/-- The word-timestamp list described by the claim (written from the
spec): one entry per word of the text, `start` the character-start time
at the word's first character index (default `0`), `stop` the
character-end time at its last character index (default `start + 0.5`),
indices taken from the word boundaries of the original text. -/
def specWordTimestamps (charStartTimes charEndTimes : List ℚ)
    (text : String) : List WordTimestamp :=
  (wordsWithIndex text.data 0).map (fun p =>
    let startTime := (charStartTimes.get? p.2).getD 0
    let endTime := (charEndTimes.get? (p.2 + p.1.length - 1)).getD (startTime + 1/2)
    { word := String.mk p.1, start := startTime, stop := endTime })

/-- Join words with single spaces (the texts on which the code's
`charIndex` bookkeeping matches the true word boundaries). -/
def joinWords : List (List Char) → List Char
  | [] => []
  | [w] => w
  | w :: rest => w ++ ' ' :: joinWords rest

/-! ## `FastBlockRenderer` (`part_002` 562-778) and `parseYouTubeCards`
(`part_006` 153-180)

`FastBlockRenderer` first strips a `<youtube-cards>` section (regex with
the `s` flag, so `.` matches newlines there), then matches
`/<BLOCKS_DATA>(.*?)<\/BLOCKS_DATA>/` — without the `s` flag, so the lazy
body cannot span a newline.  On a match it `JSON.parse`s the body inside
`try`; any parse/render throw is caught and the content is re-rendered as
markdown with the first regex match replaced by `""`.  `JSON.parse` and
`marked` are external builtins; the parse is a function parameter and the
markdown rendering is represented by returning the string handed to
`marked`. -/

/-- Scan for the shortest body (no `'\n'` unless `allowNl`) followed by
the literal `closeT`; returns `(body, rest after the close tag)`. -/
def scanClose (closeT : List Char) (allowNl : Bool) : List Char → Option (List Char × List Char)
  | [] => if closeT.isPrefixOf [] then some ([], []) else none
  | c :: t =>
    if closeT.isPrefixOf (c :: t) then some ([], (c :: t).drop closeT.length)
    else if !allowNl && c == '\n' then none
    else (scanClose closeT allowNl t).map (fun p => (c :: p.1, p.2))

/-- Leftmost regex match of `openT` + lazy body + `closeT`; returns
`(text before the open tag, body, text after the close tag)`.  When the
body cannot be completed at one start position the scan resumes at the
next position, as regex matching does. -/
def findTag (openT closeT : List Char) (allowNl : Bool) : List Char → Option (List Char × List Char × List Char)
  | [] =>
    match (if openT.isPrefixOf [] then scanClose closeT allowNl [] else none) with
    | some (body, rest) => some ([], body, rest)
    | none => none
  | c :: t =>
    match (if openT.isPrefixOf (c :: t) then scanClose closeT allowNl ((c :: t).drop openT.length) else none) with
    | some (body, rest) => some ([], body, rest)
    | none => (findTag openT closeT allowNl t).map (fun p => (c :: p.1, p.2.1, p.2.2))

/-- `<youtube-cards>` open/close tags. -/
def ytOpenTag : List Char := "<youtube-cards>".data

/-- `</youtube-cards>` close tag. -/
def ytCloseTag : List Char := "</youtube-cards>".data

/-- `<BLOCKS_DATA>` open tag. -/
def blocksOpenTag : List Char := "<BLOCKS_DATA>".data

/-- `</BLOCKS_DATA>` close tag. -/
def blocksCloseTag : List Char := "</BLOCKS_DATA>".data

/-- The `content` component of `parseYouTubeCards(content)`.
`ytParseOk` stands for "`JSON.parse` of the matched body succeeds"; on
success the match is replaced by `""` and the result trimmed, on a parse
throw the match is replaced by a warning string. -/
def parseYouTubeCardsContent (ytParseOk : String → Bool) (content : String) : String :=
  match findTag ytOpenTag ytCloseTag true content.data with
  | none => content
  | some (pre, body, post) =>
    if ytParseOk (String.mk body) then jsTrim (String.mk (pre ++ post))
    else String.mk (pre ++ "⚠️ Failed to load video recommendations".data ++ post)

/-- What `FastBlockRenderer` renders for the message text. -/
inductive RenderOutcome where
  /-- The parsed block list is rendered block by block. -/
  | blocksView (blocks : List Block)
  /-- No `<BLOCKS_DATA>` regex match: the cleaned content is rendered as
  markdown unchanged. -/
  | plainView (content : String)
  /-- The `catch` branch: markdown of the cleaned content with the
  matched section replaced by `""`. -/
  | fallbackView (content : String)
deriving DecidableEq

/-- `FastBlockRenderer` restricted to its content logic.  `parseBlocks`
stands for `JSON.parse` of the matched body followed by the block-`map`
render (`none` = that `try` body throws). -/
def fastBlockRender (parseBlocks : String → Option (List Block))
    (ytParseOk : String → Bool) (content : String) : RenderOutcome :=
  let cleaned := parseYouTubeCardsContent ytParseOk content
  match findTag blocksOpenTag blocksCloseTag false cleaned.data with
  | none => .plainView cleaned
  | some (pre, body, post) =>
    match parseBlocks (String.mk body) with
    | some blocks => .blocksView blocks
    | none => .fallbackView (String.mk (pre ++ post))

/-- A `<BLOCKS_DATA>...</BLOCKS_DATA>` section is textually present
(the reading of "present" in the claim): some open tag is followed,
anywhere later, by a close tag. -/
def sectionPresent (content : String) : Bool :=
  (findTag blocksOpenTag blocksCloseTag true content.data).isSome

/-! ## User switching (`part_001` 1166-1230)

`setCurrentUser` computes `isUserChange` from the captured `state`,
dispatches/persists, and schedules `window.location.reload()` after
500 ms when switching.  `createUser` computes the same condition from the
same captured `state`, calls `setCurrentUser`, and schedules a second
reload after 1000 ms.  A fired reload destroys the page, so pending
timers never fire: the number of reloads that execute is 1 iff at least
one reload timer was scheduled.  The initial user load from storage
dispatches `SET_CURRENT_USER` directly and schedules nothing. -/

/-- The slice of provider state read by `setCurrentUser`/`createUser`. -/
structure UserSwitchState where
  hasInitializedUser : Bool
  currentUser : UserData
deriving DecidableEq

/-- Reload timers scheduled by one call, as delays in milliseconds. -/
abbrev ReloadTimers := List Nat

/-- `isUserChange` of `setCurrentUser` (identical to `isNewUserCreation`
of `createUser`, both read the same captured `state`). -/
def isUserChange (s : UserSwitchState) (user : UserData) : Bool :=
  s.hasInitializedUser && s.currentUser.username != user.username &&
    s.currentUser.username != ""

/-- `setCurrentUser(user)`: the new captured user plus scheduled reload
timers. -/
def setCurrentUserModel (s : UserSwitchState) (user : UserData) :
    UserSwitchState × ReloadTimers :=
  ({ s with currentUser := user },
   if isUserChange s user then [500] else [])

/-- `createUser` after a successful backend response `userData`: computes
`isNewUserCreation` from the captured state, runs `setCurrentUser`, then
schedules its own reload. -/
def createUserModel (s : UserSwitchState) (userData : UserData) :
    UserSwitchState × ReloadTimers :=
  let isNewUserCreation := isUserChange s userData
  let (s', timers) := setCurrentUserModel s userData
  (s', timers ++ (if isNewUserCreation then [1000] else []))

/-- The initial user load (`useEffect` reading `localStorage`): dispatches
only, schedules no reload timer. -/
def initialUserLoadTimers : ReloadTimers := []

/-- Number of reloads that actually execute: the first fired reload
destroys the page (and all pending timers), so it is 1 iff any reload was
scheduled. -/
def reloadsExecuted (timers : ReloadTimers) : Nat :=
  if timers.isEmpty then 0 else 1

/-! ## LiveKit connection retry/backoff (`useLiveKit.ts`) -/

/-- `maxRetries = 3`. -/
def maxRetries : Nat := 3

/-- The connection timeout in milliseconds (`setTimeout(..., 15000)`). -/
def connectTimeoutMs : Nat := 15000

/-- Outcome of a single `connectToRoom` attempt:
`connected` (the `Connected` event fires first), `failedEarly`
(`room.connect` throws before the 15 s timeout), or `timedOut`
(nothing resolves within 15 s, so the timeout rejects; the later
`room.connect` failure finds `isResolved` already true and does not
retry). -/
inductive AttemptOutcome where
  | connected
  | failedEarly (msg : String)
  | timedOut
deriving DecidableEq

/-- Result of the whole `connectToRoom` retry chain. -/
inductive ConnectResult where
  | connected
  | timeout (err : String)
  | failed (err : String)
deriving DecidableEq

/-- The `connectToRoom` retry chain: attempt `attempt` runs with retry
counter `rc`; an early failure retries (after a fixed 3000 ms delay)
while `rc < maxRetries`, incrementing the counter; a success resets the
counter to 0.  Returns the result and the index of the last attempt
made. -/
def connectFrom (oracle : Nat → AttemptOutcome) (attempt rc : Nat) :
    ConnectResult × Nat :=
  match oracle attempt with
  | .connected => (.connected, attempt)
  | .timedOut => (.timeout "Connection timeout - please try again", attempt)
  | .failedEarly msg =>
    if h : rc < maxRetries then connectFrom oracle (attempt + 1) (rc + 1)
    else (.failed ("Connection failed: " ++ msg), attempt)
termination_by maxRetries - rc
decreasing_by omega

/-- What the `Disconnected` handler (`handleDisconnect`) does. -/
inductive DisconnectAction where
  /-- Schedule `startStreaming` after `delay` ms with the retry counter
  already incremented to `newRc`. -/
  | scheduleReconnect (newRc : Nat) (delay : Nat)
  /-- Surface a terminal error and stop streaming; nothing is scheduled. -/
  | terminalError (err : String)
  /-- Not streaming and below the retry cap: nothing happens. -/
  | noAction
deriving DecidableEq

/-- `handleDisconnect` from the reconnection `useEffect`: retries with
exponential backoff `min(2000 * 2^(rc-1), 10000)` (computed after the
increment) while streaming and below `maxRetries`, else surfaces the
terminal error once the cap is reached. -/
def handleDisconnect (isStreaming : Bool) (rc : Nat) : DisconnectAction :=
  if isStreaming && decide (rc < maxRetries) then
    .scheduleReconnect (rc + 1) (min (2000 * 2 ^ ((rc + 1) - 1)) 10000)
  else if rc ≥ maxRetries then
    .terminalError "Maximum reconnection attempts reached. Please try again manually."
  else .noAction

/-! ## Message-creating operations and their generated ids

Every message-creating path builds its id from a `Date.now()` value or a
backend `_id`:
* `sendMessage` user message: `` `msg-${Date.now()}` ``;
* every AI message (`aiMessage` of the research branch, `apiMessage`,
  the two error messages, `addAIMessage`, and the Auto-TTS placeholder,
  which reuses `aiMessageId`): `` `msg-${Date.now()}-ai` ``;
* `loadChatHistory`: `` `${chatData._id}-user` `` / `` `${chatData._id}-ai` ``;
* `createNewChat` chat id: `` `chat-${Date.now()}` ``.
`Date.now()` renderings are modelled as the decimal digit strings they
are. -/

/-- `` `msg-${t}` `` for a user message. -/
def userMsgId (t : String) : String := "msg-" ++ t

/-- `` `msg-${t}-ai` `` for an AI message. -/
def aiMsgId (t : String) : String := "msg-" ++ t ++ "-ai"

/-- `` `${oid}-user` `` for a history user message. -/
def histUserMsgId (oid : String) : String := oid ++ "-user"

/-- `` `${oid}-ai` `` for a history AI message. -/
def histAiMsgId (oid : String) : String := oid ++ "-ai"

/-- Is `t` a nonempty decimal digit string (the rendering of a
`Date.now()` value)? -/
def isDigitString (t : String) : Bool :=
  !t.data.isEmpty && t.data.all Char.isDigit

/-- One backend history row (`chatData`), with only the fields the
history loader reads. -/
structure HistRow where
  oid : String
  query : Option String
  response : Option String
  timestamp : Nat
  llmModel : String
deriving DecidableEq

/-- One backend history page (`pageData`). -/
structure HistPage where
  page : Int
  chat_id : String
  preview : String
  rows : List HistRow
deriving DecidableEq

/-- Stable insertion used to model `Array.prototype.sort(comparator)`
(any stable comparison sort; `List.mergeSort` is not kernel-reducible). -/
def insertSorted (le : α → α → Bool) (x : α) : List α → List α
  | [] => [x]
  | y :: ys => if le x y then x :: y :: ys else y :: insertSorted le x ys

/-- Comparator sort modelling `Array.prototype.sort`. -/
def sortByLe (le : α → α → Bool) (l : List α) : List α :=
  l.foldr (insertSorted le) []

/-- The messages contributed by one history row: a user message when
`query` is truthy, then an AI message when `response` is truthy.  The
AI content (block/YouTube serialization) is abstracted to the raw
response string, which the id claims never inspect. -/
def histRowMessages (p : HistPage) (r : HistRow) : List Message :=
  (match r.query with
   | some q =>
     [{ id := histUserMsgId r.oid, content := q, type := .user,
        timestamp := r.timestamp, page := some p.page, chat_id := some p.chat_id }]
   | none => []) ++
  (match r.response with
   | some resp =>
     [{ id := histAiMsgId r.oid, content := resp, type := .ai,
        timestamp := r.timestamp,
        mode := some (if r.llmModel == "gemini" then .research else .web),
        page := some p.page, chat_id := some p.chat_id }]
   | none => [])

/-- The single chat built for a history page: all row messages sorted by
timestamp.  (`backendChatId` is set from `pageData.chats.find(v => v.chat_id)`,
which stores a row *object*, a type confusion irrelevant to every claim;
it is modelled as `none`.) -/
def buildHistoryChat (now : Nat) (p : HistPage) : Chat :=
  let pageMessages := sortByLe (fun a b => a.timestamp ≤ b.timestamp)
    (p.rows.flatMap (histRowMessages p))
  { id := "history-page-" ++ toString p.page
    title := p.preview
    messages := pageMessages
    createdAt := match pageMessages.head? with | some m => m.timestamp | none => now
    updatedAt := match pageMessages.getLast? with | some m => m.timestamp | none => now
    backendChatId := none
    hasUsedResearchMode := p.rows.any (fun r => r.llmModel == "gemini")
    page := p.page }

/-- The chat list built by `loadChatHistory`: one chat per page with a
nonempty row list, sorted by page number descending. -/
def buildHistoryChats (now : Nat) (pages : List HistPage) : List Chat :=
  sortByLe (fun a b => b.page ≤ a.page)
    ((pages.filter (fun p => !p.rows.isEmpty)).map (buildHistoryChat now))

/-- A message-creating operation of the store, with the `Date.now()`
values it observes carried explicitly (`t` is the digit rendering used in
the generated id, `now` the timestamp stored on the created object). -/
inductive AddOp where
  /-- `createNewChat()`: dispatches `CREATE_CHAT` with a fresh empty chat
  and `SET_CURRENT_PAGE`. -/
  | createChat (t : String) (now : Nat)
  /-- The `ADD_MESSAGE` of a `sendMessage` user message to the current
  (or named) chat. -/
  | sendUserMsg (chatId : String) (t : String) (now : Nat) (content : String)
      (mode : ChatMode) (page : Int)
  /-- An `ADD_MESSAGE` of an AI-side message (streaming shell, `/query`
  response, error message, Auto-TTS placeholder) with id `msg-<t>-ai`. -/
  | addAiMsg (chatId : String) (t : String) (now : Nat) (content : String)
      (mode : ChatMode) (page : Int)
  /-- `loadChatHistory` with the given backend pages: dispatches
  `LOAD_HISTORY` and `SET_CURRENT_PAGE` when any page chat was built. -/
  | loadHistory (pages : List HistPage) (now : Nat)
deriving DecidableEq

/-- Run one operation through the reducer. -/
def runAddOp (s : ChatState) : AddOp → ChatState
  | .createChat t now =>
    let maxPage := s.chats.foldl (fun m c => max m c.page) 0
    let chat : Chat :=
      { id := "chat-" ++ t, title := "New Chat", messages := []
        createdAt := now, updatedAt := now, hasUsedResearchMode := false
        page := maxPage + 1 }
    chatReducer now (chatReducer now s (.CREATE_CHAT chat))
      (.SET_CURRENT_PAGE (maxPage + 1))
  | .sendUserMsg chatId t now content mode page =>
    chatReducer now s (.ADD_MESSAGE chatId
      { id := userMsgId t, content := jsTrim content, type := .user,
        timestamp := now, mode := mode, page := some page })
  | .addAiMsg chatId t now content mode page =>
    chatReducer now s (.ADD_MESSAGE chatId
      { id := aiMsgId t, content := content, type := .ai,
        timestamp := now, mode := mode, page := some page })
  | .loadHistory pages now =>
    let historicalChats := buildHistoryChats now pages
    if !historicalChats.isEmpty then
      let maxPage := historicalChats.foldl (fun m c => max m c.page) 0
      chatReducer now (chatReducer now s (.LOAD_HISTORY historicalChats))
        (.SET_CURRENT_PAGE (maxPage + 1))
    else s

/-- Run a list of operations. -/
def runAddOps (s : ChatState) (ops : List AddOp) : ChatState :=
  ops.foldl runAddOp s

/-- The fresh `msg-…` ids an operation generates (history ids are not
listed: `LOAD_HISTORY` replaces the whole chat list, so they need no
freshness against earlier state). -/
def opMsgIds : AddOp → List String
  | .createChat _ _ => []
  | .sendUserMsg _ t _ _ _ _ => [userMsgId t]
  | .addAiMsg _ t _ _ _ _ => [aiMsgId t]
  | .loadHistory _ _ => []

/-- All fresh `msg-…` ids of an operation list. -/
def opsMsgIds : List AddOp → List String
  | [] => []
  | op :: rest => opMsgIds op ++ opsMsgIds rest

/-- The `Date.now()` digit strings of the user-message operations. -/
def userTs : List AddOp → List String
  | [] => []
  | .sendUserMsg _ t _ _ _ _ :: rest => t :: userTs rest
  | _ :: rest => userTs rest

/-- The `Date.now()` digit strings of the AI-message operations. -/
def aiTs : List AddOp → List String
  | [] => []
  | .addAiMsg _ t _ _ _ _ :: rest => t :: aiTs rest
  | _ :: rest => aiTs rest

/-- The digit-string / oid-shape side conditions of an operation:
timestamps render as digits, and history `_id`s are `msg-`-free and
unique within each page. -/
def opShapeOk : AddOp → Bool
  | .createChat _ _ => true
  | .sendUserMsg _ t _ _ _ _ => isDigitString t
  | .addAiMsg _ t _ _ _ _ => isDigitString t
  | .loadHistory pages _ =>
    pages.all (fun p =>
      decide (p.rows.map (fun r => r.oid)).Nodup &&
        p.rows.all (fun r => !("msg-".data.isPrefixOf r.oid.data)))

/-- A concrete operation sequence (chat creation, user send, AI message,
history load, post-history send) used to instantiate the id-distinctness
invariant. -/
def sampleOps : List AddOp :=
  [.createChat "100" 100,
   .sendUserMsg "chat-100" "101" 101 "hello" none 1,
   .addAiMsg "chat-100" "102" 102 "world" none 1,
   .loadHistory
     [{ page := 1, chat_id := "bk1", preview := "pv",
        rows := [{ oid := "oid1", query := some "q", response := some "r",
                   timestamp := 5, llmModel := "gemini" }] }] 200,
   .sendUserMsg "history-page-1" "300" 300 "again" none 1]

/-! ## Properties stated about the embedded definitions -/

/-- C2's invariant for chat id `x`: every chat in the store with that id
has `hasUsedResearchMode = true`. -/
def flagInvariant (x : String) (s : ChatState) : Prop :=
  ∀ c ∈ s.chats, c.id = x → c.hasUsedResearchMode = true

instance flagInvariantDecidable (x : String) (s : ChatState) :
    Decidable (flagInvariant x s) :=
  inferInstanceAs (Decidable (∀ c ∈ s.chats, c.id = x → c.hasUsedResearchMode = true))

/-- Actions that cannot take `hasUsedResearchMode` for id `x` from `true`
back to `false`: everything except `LOAD_HISTORY` (which replaces the
chat list wholesale) and a `CREATE_CHAT` that re-creates id `x` with the
flag unset. -/
def actionPreservesFlag (x : String) : ChatAction → Bool
  | .LOAD_HISTORY _ => false
  | .CREATE_CHAT c => c.id != x || c.hasUsedResearchMode
  | _ => true

/-- C10's invariant as it actually holds: `currentChat` caches the first
chat whose id is `currentChatId` (or `none`). -/
def currentChatConsistent (s : ChatState) : Prop :=
  s.currentChat = s.currentChatId.bind (fun cid => s.chats.find? (fun c => c.id == cid))

/-- The property claimed by C10, literally: `currentChat` is `none` iff
`currentChatId` is `null` or names no chat, and otherwise there is
exactly one chat with that id and `currentChat` is it. -/
def claimedUniqueCurrentChat (s : ChatState) : Bool :=
  match s.currentChatId with
  | none => s.currentChat == none
  | some cid =>
    if (s.chats.filter (fun c => c.id == cid)).isEmpty then s.currentChat == none
    else ((s.chats.filter (fun c => c.id == cid)).length == 1) &&
      (s.currentChat == (s.chats.filter (fun c => c.id == cid)).head?)

/-- C5's invariant used for the induction: every chat's message ids are
pairwise distinct, and no stored id clashes with a `msg-…` id a later
operation will generate. -/
def msgInv (ops : List AddOp) (s : ChatState) : Prop :=
  ∀ chat ∈ s.chats, (chat.messages.map Message.id).Nodup ∧
    ∀ m ∈ chat.messages, m.id ∉ opsMsgIds ops

/-- The words of a single-space-joined word list paired with their true
character start indices in the joined text: word `k+1` starts one past
the end of word `k`. -/
def indexedWords : List (List Char) → Nat → List (List Char × Nat)
  | [], _ => []
  | w :: rest, i => (w, i) :: indexedWords rest (i + w.length + 1)

/-! ## C3: monotonicity of the word-reveal index -/

/-- The loop result never drops below the accumulator (the accumulator is
always strictly below the loop counter). -/
theorem revealLoop_ge (ct : ℚ) (l : List WordTimestamp) :
    ∀ (i : Nat) (acc : Int), acc < (i : Int) → acc ≤ revealLoop ct l i acc := by
  induction l with
  | nil => intro i acc _; simp [revealLoop]
  | cons w rest ih =>
    intro i acc h
    simp only [revealLoop]
    split
    · have := ih (i + 1) (i : Int) (by omega)
      omega
    · omega

/-- The loop result is monotone in the playback time. -/
theorem revealLoop_mono (ct ct' : ℚ) (hct : ct ≤ ct') (l : List WordTimestamp) :
    ∀ (i : Nat) (acc : Int), acc < (i : Int) →
      revealLoop ct l i acc ≤ revealLoop ct' l i acc := by
  induction l with
  | nil => intro i acc _; simp [revealLoop]
  | cons w rest ih =>
    intro i acc h
    simp only [revealLoop]
    by_cases h1 : w.start ≤ ct
    · rw [if_pos h1, if_pos (le_trans h1 hct)]
      exact ih (i + 1) (i : Int) (by omega)
    · rw [if_neg h1]
      by_cases h2 : w.start ≤ ct'
      · rw [if_pos h2]
        have := revealLoop_ge ct' rest (i + 1) (i : Int) (by omega)
        omega
      · rw [if_neg h2]

/-- C3: for a fixed word-timestamp list the reveal index computed by the
synchronized-TTS `timeupdate` handler is a monotonically non-decreasing
function of the audio element's `currentTime`; hence during uninterrupted
playback (non-decreasing `currentTime`) the word-reveal index never
decreases. -/
theorem c3_reveal_index_monotone (ws : List WordTimestamp) (ct ct' : ℚ)
    (h : ct ≤ ct') : revealUpToIndex ws ct ≤ revealUpToIndex ws ct' :=
  revealLoop_mono ct ct' h ws 0 (-1) (by omega)

/-- Witness for C3 at a concrete timestamp list and time pair. -/
theorem c3_reveal_index_monotone_witness :
    (1 : ℚ) ≤ 2 ∧
      revealUpToIndex [⟨"hello", 1/2, 1⟩, ⟨"world", 3/2, 2⟩] 1 ≤
        revealUpToIndex [⟨"hello", 1/2, 1⟩, ⟨"world", 3/2, 2⟩] 2 :=
  ⟨by norm_num, c3_reveal_index_monotone _ 1 2 (by norm_num)⟩

/-! ## C7: error handling of `sendMessage` -/

/-- C7 (amended): a rejected or non-OK *primary* fetch (GenAI stream in
research mode, `/query` otherwise) is caught and replaced by the fixed
failure/apology string instead of propagating; an `error` stream event
appends a `⚠️`-marked warning to the accumulated text and processing
continues with the next event, while `fatal_error` (after the same
append) terminates processing; a rejected *YouTube recommendation* fetch
does not produce an apology — the message keeps its stream content and a
Related-Videos warning suffix is appended. -/
theorem c7_error_handling :
    (∀ (stringify : List Block → String) (yt : Option String),
        researchFinalContent stringify none yt = researchApology) ∧
    (queryFinalContent none = queryApology) ∧
    (∀ (m : String) (st : StreamState),
        processData (.error m) st =
          ({ st with currentTextContent := st.currentTextContent ++ "\n\n⚠️ " ++ m },
            false)) ∧
    (∀ (m : String) (st : StreamState) (rest : List SSEEvent),
        runStream (SSEEvent.error m :: rest) st =
          runStream rest (processData (.error m) st).1) ∧
    (∀ (m : String) (st : StreamState) (rest : List SSEEvent),
        runStream (SSEEvent.fatal_error m :: rest) st =
          (processData (.fatal_error m) st).1) ∧
    (∀ (stringify : List Block → String) (events : List SSEEvent),
        researchFinalContent stringify (some events) none =
          researchStreamContent stringify events ++ ytUnavailable) :=
  ⟨fun _ _ => rfl, rfl, fun _ _ => rfl, fun _ _ _ => rfl, fun _ _ _ => rfl,
    fun _ _ => rfl⟩

/-- Counterexample to C7 as stated: here the YouTube recommendation fetch
(a backend fetch issued by `sendMessage`) rejects, yet the AI message
content is the streamed block content plus a warning suffix, not a fixed
apology string. -/
theorem c7_counterexample :
    researchFinalContent (fun _ => "[demo-blocks]")
        (some [SSEEvent.init none, SSEEvent.text_chunk "hi", SSEEvent.complete])
        none =
      "<BLOCKS_DATA>[demo-blocks]</BLOCKS_DATA>\n\n## Related Videos\n\n⚠️ Video recommendations temporarily unavailable." ∧
    "<BLOCKS_DATA>[demo-blocks]</BLOCKS_DATA>\n\n## Related Videos\n\n⚠️ Video recommendations temporarily unavailable."
        ≠ researchApology ∧
    "<BLOCKS_DATA>[demo-blocks]</BLOCKS_DATA>\n\n## Related Videos\n\n⚠️ Video recommendations temporarily unavailable."
        ≠ queryApology := by
  refine ⟨?_, by decide, by decide⟩
  decide

/-! ## C8: user switching triggers exactly one reload -/

/-- C8: when the app is initialized, the previous username is nonempty
and the new username differs, both `setCurrentUser` and `createUser`
lead to exactly one executed page reload (a fired reload destroys the
page, so `createUser`'s second pending timer never runs); setting the
same user again and the initial storage load execute no reload. -/
theorem c8_user_switch_reload (s : UserSwitchState) (u : UserData)
    (hinit : s.hasInitializedUser = true) (hne : s.currentUser.username ≠ "") :
    (u.username ≠ s.currentUser.username →
      reloadsExecuted (setCurrentUserModel s u).2 = 1 ∧
      reloadsExecuted (createUserModel s u).2 = 1) ∧
    (u.username = s.currentUser.username →
      reloadsExecuted (setCurrentUserModel s u).2 = 0 ∧
      reloadsExecuted (createUserModel s u).2 = 0) ∧
    reloadsExecuted initialUserLoadTimers = 0 := by
  have hchange : ∀ hu : u.username ≠ s.currentUser.username, isUserChange s u = true := by
    intro hu
    simp [isUserChange, hinit, hne, Ne.symm hu]
  have hsame : ∀ _ : u.username = s.currentUser.username, isUserChange s u = false := by
    intro hu
    simp [isUserChange, hu.symm]
  refine ⟨fun hu => ?_, fun hu => ?_, rfl⟩
  · simp [setCurrentUserModel, createUserModel, hchange hu, reloadsExecuted]
  · simp [setCurrentUserModel, createUserModel, hsame hu, reloadsExecuted,
      initialUserLoadTimers]

/-- Witness for C8 at a concrete state and user pair. -/
theorem c8_user_switch_reload_witness :
    (({ hasInitializedUser := true,
        currentUser := { name := "Alice", username := "alice" } } :
          UserSwitchState).hasInitializedUser = true ∧
      ({ hasInitializedUser := true,
         currentUser := { name := "Alice", username := "alice" } } :
          UserSwitchState).currentUser.username ≠ "") ∧
    reloadsExecuted (setCurrentUserModel
      { hasInitializedUser := true,
        currentUser := { name := "Alice", username := "alice" } }
      { name := "Bob", username := "bob" }).2 = 1 := by
  refine ⟨⟨rfl, by decide⟩, ?_⟩
  exact ((c8_user_switch_reload _ _ rfl (by decide)).1 (by decide)).1

/-! ## C9: LiveKit timeout, retry cap and backoff -/

/-- The retry chain makes at most `maxRetries - rc` further attempts. -/
theorem connectFrom_attempt_bound (oracle : Nat → AttemptOutcome) :
    ∀ (fuel a rc : Nat), maxRetries - rc ≤ fuel →
      (connectFrom oracle a rc).2 - a ≤ maxRetries - rc := by
  intro fuel
  induction fuel with
  | zero =>
    intro a rc hf
    rw [connectFrom]
    cases oracle a with
    | connected => simp
    | timedOut => simp
    | failedEarly msg =>
      dsimp only
      rw [dif_neg (by omega : ¬ rc < maxRetries)]
      simp
  | succ n ih =>
    intro a rc hf
    rw [connectFrom]
    cases oracle a with
    | connected => simp
    | timedOut => simp
    | failedEarly msg =>
      dsimp only
      by_cases h : rc < maxRetries
      · rw [dif_pos h]
        have := ih (a + 1) (rc + 1) (by omega)
        omega
      · rw [dif_neg h]
        simp

/-- C9: a connection attempt that times out (15 s) fails with the timeout
error and is not retried; failed attempts are retried at most
`maxRetries = 3` times; reconnection after a disconnect while streaming
uses backoff `min(2000·2^(n-1), 10000)` ms for the `n`-th retry (here
`n = rc + 1`); and once the cap is reached `handleDisconnect` surfaces
the terminal error string and schedules nothing. -/
theorem c9_livekit_retry (oracle : Nat → AttemptOutcome) (a rc : Nat) :
    (oracle a = .timedOut →
      connectFrom oracle a rc =
        (.timeout "Connection timeout - please try again", a)) ∧
    ((connectFrom oracle a rc).2 - a ≤ maxRetries - rc) ∧
    (rc < maxRetries → handleDisconnect true rc =
      .scheduleReconnect (rc + 1) (min (2000 * 2 ^ rc) 10000)) ∧
    (∀ streaming : Bool, rc ≥ maxRetries → handleDisconnect streaming rc =
      .terminalError "Maximum reconnection attempts reached. Please try again manually.") := by
  refine ⟨?_, connectFrom_attempt_bound oracle (maxRetries - rc) a rc le_rfl, ?_, ?_⟩
  · intro h
    rw [connectFrom, h]
  · intro h
    simp [handleDisconnect, h]
  · intro streaming h
    have hlt : ¬ rc < maxRetries := by omega
    cases streaming <;> simp [handleDisconnect, hlt, h]

/-- Witness for C9: a timeout on the first attempt, the first-retry
backoff value, and the terminal error at the cap, at concrete inputs. -/
theorem c9_livekit_retry_witness :
    ((fun _ => AttemptOutcome.timedOut) 0 = AttemptOutcome.timedOut ∧
      connectFrom (fun _ => AttemptOutcome.timedOut) 0 0 =
        (.timeout "Connection timeout - please try again", 0)) ∧
    (0 < maxRetries ∧ handleDisconnect true 0 = .scheduleReconnect 1 2000) ∧
    (3 ≥ maxRetries ∧ handleDisconnect false 3 =
      .terminalError "Maximum reconnection attempts reached. Please try again manually.") := by
  refine ⟨⟨rfl, (c9_livekit_retry (fun _ => .timedOut) 0 0).1 rfl⟩, ⟨by decide, ?_⟩, ⟨by decide, ?_⟩⟩
  · have := (c9_livekit_retry (fun _ => .timedOut) 0 0).2.2.1 (by decide)
    simpa using this
  · exact (c9_livekit_retry (fun _ => .timedOut) 0 3).2.2.2 false (by decide)

/-! ## C1: the SSE block accumulator versus the claimed block list -/

/-- Body events (and `init`/`error`) do not stop the stream loop. -/
theorem runStream_body_cons (e : SSEEvent) (he : isBodyEvent e = true)
    (rest : List SSEEvent) (st : StreamState) :
    runStream (e :: rest) st = runStream rest (processData e st).1 := by
  cases e with
  | init cid => rfl
  | text_chunk c => rfl
  | image_loading m => rfl
  | image_complete p => rfl
  | error m => rfl
  | complete => simp [isBodyEvent] at he
  | fatal_error m => simp [isBodyEvent] at he

/-- Processing the body followed by the final `complete` event extends
`orderedBlocks` by exactly the claimed block list, provided no
accumulated text run is whitespace-only-but-nonempty and the blocks so
far do not end in a text block. -/
theorem runStream_spec (body : List SSEEvent) :
    ∀ st : StreamState, body.all isBodyEvent = true →
      goodRuns st.currentTextContent body = true →
      (∀ b, st.orderedBlocks.getLast? = some b → b.isText = false) →
      (runStream (body ++ [SSEEvent.complete]) st).orderedBlocks
        = st.orderedBlocks ++ specBlocks st.currentTextContent body := by
  induction body with
  | nil =>
    intro st _ hgood _
    by_cases hc : (jsTrim st.currentTextContent != "") = true
    · have hne : (st.currentTextContent == "") = false := by
        by_contra h
        have hb : st.currentTextContent = "" :=
          eq_of_beq (by simpa using h)
        rw [hb] at hc
        exact absurd hc (by decide)
      simp [runStream, processData, hc, specBlocks, hne]
    · have hb : (st.currentTextContent == "") = true := by
        simp only [goodRuns] at hgood
        rcases Bool.or_eq_true_iff.mp hgood with h | h
        · exact h
        · rw [h] at hc; exact absurd rfl hc
      rw [Bool.not_eq_true] at hc
      simp [runStream, processData, hc, specBlocks, hb]
  | cons e rest ih =>
    intro st hall hgood hlast
    rw [List.all_cons, Bool.and_eq_true] at hall
    cases e with
    | text_chunk c =>
      rw [List.cons_append, runStream_body_cons (SSEEvent.text_chunk c) rfl _ st]
      have hblocks : (processData (.text_chunk c) st).1.orderedBlocks
          = st.orderedBlocks := by
        simp only [processData]
        cases hL : st.orderedBlocks.getLast? with
        | none => rfl
        | some b =>
          have hb := hlast b hL
          simp [hb]
      have hcur : (processData (.text_chunk c) st).1.currentTextContent
          = st.currentTextContent ++ c := rfl
      rw [ih _ hall.2 (by rw [hcur]; simpa [goodRuns] using hgood)
        (by rw [hblocks]; exact hlast), hblocks, hcur]
      rfl
    | image_loading m =>
      rw [List.cons_append, runStream_body_cons (SSEEvent.image_loading m) rfl _ st]
      have hst : (processData (.image_loading m) st).1 = st := rfl
      rw [hst, ih _ hall.2 (by simpa [goodRuns] using hgood) hlast]
      rfl
    | image_complete p =>
      rw [List.cons_append, runStream_body_cons (SSEEvent.image_complete p) rfl _ st]
      simp only [goodRuns, Bool.and_eq_true] at hgood
      by_cases hc : (jsTrim st.currentTextContent != "") = true
      · have hne : (st.currentTextContent == "") = false := by
          by_contra h
          have hb : st.currentTextContent = "" := eq_of_beq (by simpa using h)
          rw [hb] at hc
          exact absurd hc (by decide)
        have hst : (processData (.image_complete p) st).1
            = { st with
                currentTextContent := ""
                orderedBlocks :=
                  (st.orderedBlocks ++ [Block.text st.currentTextContent])
                    ++ [Block.image p] } := by
          simp [processData, hc]
        rw [hst, ih _ hall.2 (by simpa using hgood.2)
          (by intro b hb
              rw [List.getLast?_concat] at hb
              cases hb
              rfl)]
        simp [specBlocks, hne]
      · have hb : (st.currentTextContent == "") = true := by
          rcases Bool.or_eq_true_iff.mp hgood.1 with h | h
          · exact h
          · rw [h] at hc; exact absurd rfl hc
        have hbe : st.currentTextContent = "" := eq_of_beq hb
        rw [Bool.not_eq_true] at hc
        have hst : (processData (.image_complete p) st).1
            = { st with orderedBlocks := st.orderedBlocks ++ [Block.image p] } := by
          simp [processData, hc]
        rw [hst, ih _ hall.2 (by simpa [hbe] using hgood.2)
          (by intro b hbL
              rw [List.getLast?_concat] at hbL
              cases hbL
              rfl)]
        simp [specBlocks, hb, hbe]
    | init cid => simp [isBodyEvent] at hall
    | complete => simp [isBodyEvent] at hall
    | error m => simp [isBodyEvent] at hall
    | fatal_error m => simp [isBodyEvent] at hall

/-- C1 (amended): for a well-formed event sequence (`init`, then
`text_chunk` / `image_loading` / `image_complete` events, terminated by
`complete`) in which the text accumulated before each `image_complete`
and before `complete` is never whitespace-only-but-nonempty, the ordered
block list the handler serializes into `<BLOCKS_DATA>` is exactly the
streamed text and image content in arrival order: each maximal text run
becomes one text block and each `image_complete` appends one image block
after the text received before it.  (Whitespace-only runs are instead
dropped at the end of the stream or deferred past the next image, see the
counterexample.) -/
theorem c1_stream_blocks (cid : Option String) (body : List SSEEvent)
    (hbody : body.all isBodyEvent = true) (hgood : goodRuns "" body = true) :
    (runStream (SSEEvent.init cid :: body ++ [SSEEvent.complete])
        initialStreamState).orderedBlocks = specBlocks "" body := by
  have h0 : runStream (SSEEvent.init cid :: body ++ [SSEEvent.complete])
      initialStreamState
      = runStream (body ++ [SSEEvent.complete])
          { initialStreamState with backendChatId := cid } := rfl
  rw [h0, runStream_spec body _ hbody hgood (by intro b hb; cases hb)]
  rfl

/-- Witness for C1 on a concrete well-formed stream: two text chunks, an
image, a further text chunk. -/
theorem c1_stream_blocks_witness :
    (([SSEEvent.text_chunk "Hello ", SSEEvent.text_chunk "world",
        SSEEvent.image_loading "loading", SSEEvent.image_complete "img1",
        SSEEvent.text_chunk "More"].all isBodyEvent = true) ∧
      goodRuns "" [SSEEvent.text_chunk "Hello ", SSEEvent.text_chunk "world",
        SSEEvent.image_loading "loading", SSEEvent.image_complete "img1",
        SSEEvent.text_chunk "More"] = true) ∧
    (runStream (SSEEvent.init (some "chat7") ::
        [SSEEvent.text_chunk "Hello ", SSEEvent.text_chunk "world",
          SSEEvent.image_loading "loading", SSEEvent.image_complete "img1",
          SSEEvent.text_chunk "More"] ++ [SSEEvent.complete])
        initialStreamState).orderedBlocks
      = [Block.text "Hello world", Block.image "img1", Block.text "More"] := by
  refine ⟨⟨by decide, by decide⟩, ?_⟩
  rw [c1_stream_blocks (some "chat7") _ (by decide) (by decide)]
  decide

/-- Counterexample to C1 as stated: the well-formed stream whose only
text chunk is the single space `" "` produces an *empty* block list —
the whitespace-only text is dropped by the `trim()` guard — while the
claimed block list keeps the streamed text. -/
theorem c1_counterexample :
    ([SSEEvent.text_chunk " "].all isBodyEvent = true) ∧
    (runStream (SSEEvent.init none :: [SSEEvent.text_chunk " "] ++
        [SSEEvent.complete]) initialStreamState).orderedBlocks
      ≠ specBlocks "" [SSEEvent.text_chunk " "] := by
  exact ⟨by decide, by decide⟩

/-! ## Reducer `find?` helper lemmas -/

/-- Filtering by a predicate the target already satisfies does not change
the first match. -/
theorem find?_filter_of_imp (l : List Chat) (p q : Chat → Bool)
    (h : ∀ c, p c = true → q c = true) :
    (l.filter q).find? p = l.find? p := by
  induction l with
  | nil => rfl
  | cons c rest ih =>
    rw [List.filter_cons]
    by_cases hq : q c = true
    · rw [if_pos hq]
      by_cases hp : p c = true
      · rw [List.find?_cons_of_pos _ hp, List.find?_cons_of_pos _ hp]
      · rw [List.find?_cons_of_neg _ hp, List.find?_cons_of_neg _ hp, ih]
    · rw [if_neg hq, ih, List.find?_cons_of_neg _ (fun hp => hq (h c hp))]

/-- Mapping by a function that fixes every match and preserves the
predicate does not change the first match. -/
theorem find?_map_invariant (l : List Chat) (f : Chat → Chat) (p : Chat → Bool)
    (hp : ∀ c, p (f c) = p c) (hfix : ∀ c, p c = true → f c = c) :
    (l.map f).find? p = l.find? p := by
  induction l with
  | nil => rfl
  | cons c rest ih =>
    rw [List.map_cons]
    by_cases hc : p c = true
    · rw [List.find?_cons_of_pos _ (by rw [hp]; exact hc),
        List.find?_cons_of_pos _ hc, hfix c hc]
    · rw [List.find?_cons_of_neg _ (by rw [hp]; exact hc),
        List.find?_cons_of_neg _ hc, ih]

/-- The repeated `currentChat` recomputation restores consistency for
every per-chat update `g` that preserves chat ids. -/
theorem recompute_consistent (s : ChatState) (chatId : String) (g : Chat → Chat)
    (hgid : ∀ c, (g c).id = c.id) (h : currentChatConsistent s) :
    recomputedCurrentChat s chatId
        (s.chats.map (fun c => if c.id == chatId then g c else c))
      = s.currentChatId.bind (fun cid =>
          (s.chats.map (fun c => if c.id == chatId then g c else c)).find?
            (fun c => c.id == cid)) := by
  unfold recomputedCurrentChat
  by_cases hcur : (s.currentChatId == some chatId) = true
  · rw [if_pos hcur]
    have heq : s.currentChatId = some chatId := by
      cases hs : s.currentChatId with
      | none => rw [hs] at hcur; simp at hcur
      | some cid =>
        rw [hs] at hcur
        have : cid = chatId := by simpa using hcur
        rw [this]
    rw [heq]
    rfl
  · rw [if_neg hcur, h]
    cases hs : s.currentChatId with
    | none => rfl
    | some cid =>
      have hne : cid ≠ chatId := by
        intro hcc
        rw [hs, hcc] at hcur
        exact hcur (by simp)
      show s.chats.find? (fun c => c.id == cid) = _
      refine (find?_map_invariant s.chats _ _ ?_ ?_).symm
      · intro c
        by_cases hcid : (c.id == chatId) = true
        · simp only [if_pos hcid]
          rw [hgid c]
        · simp only [if_neg hcid]
      · intro c hpc
        have hcid : c.id = cid := by simpa using hpc
        rw [if_neg (by simp [hcid, hne])]

/-! ## C10: the `currentChat` / `currentChatId` invariant -/

/-- Every reducer step preserves `currentChatConsistent`. -/
theorem currentChatConsistent_step (now : Nat) (s : ChatState) (a : ChatAction)
    (h : currentChatConsistent s) : currentChatConsistent (chatReducer now s a) := by
  cases a with
  | CREATE_CHAT chat =>
    show some chat = ((chat :: s.chats).find? (fun c => c.id == chat.id))
    rw [List.find?_cons_of_pos _ (by simp)]
  | SELECT_CHAT chatId => rfl
  | DELETE_CHAT chatId =>
    show (if (s.currentChatId == some chatId) = true then none else s.currentChat) = _
    by_cases hcur : (s.currentChatId == some chatId) = true
    · rw [if_pos hcur]
      show none = Option.bind (if (s.currentChatId == some chatId) = true
        then none else s.currentChatId) _
      rw [if_pos hcur]
      rfl
    · rw [if_neg hcur]
      show s.currentChat = Option.bind (if (s.currentChatId == some chatId) = true
        then none else s.currentChatId) _
      rw [if_neg hcur, h]
      cases hs : s.currentChatId with
      | none => rfl
      | some cid =>
        have hne : cid ≠ chatId := by
          intro hcc
          rw [hs, hcc] at hcur
          exact hcur (by simp)
        show s.chats.find? (fun c => c.id == cid) = _
        refine (find?_filter_of_imp s.chats _ _ ?_).symm
        intro c hpc
        have hcid : c.id = cid := by simpa using hpc
        simp [hcid, hne]
  | ADD_MESSAGE chatId message =>
    exact recompute_consistent s chatId _ (fun c => rfl) h
  | UPDATE_MESSAGE chatId messageId content =>
    exact recompute_consistent s chatId _ (fun c => rfl) h
  | SET_MESSAGE_STREAMING chatId messageId isStreaming =>
    exact recompute_consistent s chatId _ (fun c => rfl) h
  | SET_CURRENTLY_GENERATING chatId messageId =>
    exact recompute_consistent s chatId _ (fun c => rfl) h
  | SET_BACKEND_CHAT_ID chatId backendChatId =>
    exact recompute_consistent s chatId _ (fun c => rfl) h
  | SET_RESEARCH_MODE_USED chatId =>
    exact recompute_consistent s chatId _ (fun c => rfl) h
  | MARK_MESSAGE_AUTO_TTS_PLAYED chatId messageId =>
    exact recompute_consistent s chatId _ (fun c => rfl) h
  | SET_THEME theme => exact h
  | TOGGLE_SIDEBAR => exact h
  | SET_DASHBOARD showFlag => exact h
  | SET_USER_NAME name => exact h
  | SET_CURRENT_USER user => exact h
  | SET_USER_INITIALIZED initialized => exact h
  | SET_TYPING isTyping => exact h
  | SET_MODE mode => exact h
  | TOGGLE_AURORA => exact h
  | TOGGLE_LIVE_MODE => exact h
  | SET_LOADING_STATE loadingState => exact h
  | SET_CURRENT_PAGE page => exact h
  | LOAD_HISTORY chats => rfl
  | TOGGLE_AUTO_TTS => exact h
  | HANDLE_AUTO_TTS_RESPONSE chatId content messageId => exact h

/-- The invariant holds along any action sequence. -/
theorem currentChatConsistent_runActions (l : List (Nat × ChatAction)) :
    ∀ s : ChatState, currentChatConsistent s →
      currentChatConsistent (runActions s l) := by
  induction l with
  | nil => intro s h; exact h
  | cons p rest ih =>
    intro s h
    exact ih _ (currentChatConsistent_step p.1 s p.2 h)

/-- C10 (amended): after every action sequence from the initial state,
`currentChat` equals the *first* chat in `chats` whose id is
`currentChatId` (and is `none` exactly when `currentChatId` is `null` or
names no chat).  When chat ids are distinct this first chat is the unique
one; the literal uniqueness reading fails, see the counterexample. -/
theorem c10_current_chat_invariant (l : List (Nat × ChatAction)) :
    currentChatConsistent (runActions initialState l) :=
  currentChatConsistent_runActions l initialState rfl

/-- Counterexample to C10 as stated: two `CREATE_CHAT` dispatches with
the same chat id (as produced by two `createNewChat()` calls in the same
millisecond) leave two chats with id `"a"`, so no *unique* chat with
`currentChatId`'s id exists. -/
theorem c10_counterexample :
    claimedUniqueCurrentChat (runActions initialState
      [(0, .CREATE_CHAT
          { id := "a", title := "first", messages := [], createdAt := 0,
            updatedAt := 0, hasUsedResearchMode := false, page := 1 }),
       (1, .CREATE_CHAT
          { id := "a", title := "second", messages := [], createdAt := 1,
            updatedAt := 1, hasUsedResearchMode := false, page := 2 })])
      = false := by decide

/-! ## C2: monotonicity of `hasUsedResearchMode` -/

/-- Per-chat updates that preserve ids and never unset the flag preserve
the flag invariant. -/
theorem flagInvariant_map (x : String) (s : ChatState) (chatId : String)
    (g : Chat → Chat) (hgid : ∀ c, (g c).id = c.id)
    (hgflag : ∀ c, c.hasUsedResearchMode = true → (g c).hasUsedResearchMode = true)
    (h : flagInvariant x s) :
    ∀ c ∈ s.chats.map (fun c => if c.id == chatId then g c else c),
      c.id = x → c.hasUsedResearchMode = true := by
  intro c hc hcx
  rcases List.mem_map.mp hc with ⟨c₀, hc₀, rfl⟩
  by_cases hcid : (c₀.id == chatId) = true
  · rw [if_pos hcid] at hcx ⊢
    exact hgflag c₀ (h c₀ hc₀ (by rw [hgid c₀] at hcx; exact hcx))
  · rw [if_neg hcid] at hcx ⊢
    exact h c₀ hc₀ hcx

/-- Every reducer step other than `LOAD_HISTORY` and a flag-unset
re-`CREATE_CHAT` preserves the flag invariant. -/
theorem flagInvariant_step (x : String) (now : Nat) (s : ChatState)
    (a : ChatAction) (ha : actionPreservesFlag x a = true)
    (h : flagInvariant x s) : flagInvariant x (chatReducer now s a) := by
  cases a with
  | CREATE_CHAT chat =>
    intro c hc hcx
    rcases List.mem_cons.mp hc with rfl | hc'
    · simp only [actionPreservesFlag] at ha
      rcases Bool.or_eq_true_iff.mp ha with hid | hflag
      · rw [bne_iff_ne] at hid
        exact absurd hcx hid
      · exact hflag
    · exact h c hc' hcx
  | SELECT_CHAT chatId => exact h
  | DELETE_CHAT chatId =>
    intro c hc hcx
    exact h c (List.mem_of_mem_filter hc) hcx
  | ADD_MESSAGE chatId message =>
    exact flagInvariant_map x s chatId _ (fun c => rfl) (fun c hc => hc) h
  | UPDATE_MESSAGE chatId messageId content =>
    exact flagInvariant_map x s chatId _ (fun c => rfl) (fun c hc => hc) h
  | SET_MESSAGE_STREAMING chatId messageId isStreaming =>
    exact flagInvariant_map x s chatId _ (fun c => rfl) (fun c hc => hc) h
  | SET_CURRENTLY_GENERATING chatId messageId =>
    exact flagInvariant_map x s chatId _ (fun c => rfl) (fun c hc => hc) h
  | SET_BACKEND_CHAT_ID chatId backendChatId =>
    exact flagInvariant_map x s chatId _ (fun c => rfl) (fun c hc => hc) h
  | SET_RESEARCH_MODE_USED chatId =>
    exact flagInvariant_map x s chatId _ (fun c => rfl) (fun c _ => rfl) h
  | MARK_MESSAGE_AUTO_TTS_PLAYED chatId messageId =>
    exact flagInvariant_map x s chatId _ (fun c => rfl) (fun c hc => hc) h
  | SET_THEME theme => exact h
  | TOGGLE_SIDEBAR => exact h
  | SET_DASHBOARD showFlag => exact h
  | SET_USER_NAME name => exact h
  | SET_CURRENT_USER user => exact h
  | SET_USER_INITIALIZED initialized => exact h
  | SET_TYPING isTyping => exact h
  | SET_MODE mode => exact h
  | TOGGLE_AURORA => exact h
  | TOGGLE_LIVE_MODE => exact h
  | SET_LOADING_STATE loadingState => exact h
  | SET_CURRENT_PAGE page => exact h
  | LOAD_HISTORY chats => simp [actionPreservesFlag] at ha
  | TOGGLE_AUTO_TTS => exact h
  | HANDLE_AUTO_TTS_RESPONSE chatId content messageId => exact h

/-- C2 (amended): for every chat id, once every chat with that id has
`hasUsedResearchMode = true`, it stays `true` across every action
sequence that contains no `LOAD_HISTORY` (which replaces the chat list
wholesale with backend-derived flags) and no `CREATE_CHAT` that
re-creates that id with the flag unset; no other action resets the flag. -/
theorem c2_research_flag_monotone (x : String) (s : ChatState)
    (l : List (Nat × ChatAction))
    (hl : ∀ p ∈ l, actionPreservesFlag x p.2 = true)
    (h : flagInvariant x s) : flagInvariant x (runActions s l) := by
  induction l generalizing s with
  | nil => exact h
  | cons p rest ih =>
    exact ih _ (fun q hq => hl q (List.mem_cons_of_mem p hq))
      (flagInvariant_step x p.1 s p.2 (hl p (List.mem_cons_self p rest)) h)

/-- Witness for C2: a concrete state with the flag set, surviving an
`ADD_MESSAGE` and a `DELETE_CHAT`. -/
theorem c2_research_flag_monotone_witness :
    ((∀ p ∈ ([(5, ChatAction.ADD_MESSAGE "a"
          { id := "m1", content := "hi", type := .user, timestamp := 5 }),
        (6, ChatAction.DELETE_CHAT "b")] : List (Nat × ChatAction)),
        actionPreservesFlag "a" p.2 = true) ∧
      flagInvariant "a" { initialState with chats :=
        [{ id := "a", title := "t", messages := [], createdAt := 0,
           updatedAt := 0, hasUsedResearchMode := true, page := 1 }] }) ∧
    flagInvariant "a" (runActions
      { initialState with chats :=
        [{ id := "a", title := "t", messages := [], createdAt := 0,
           updatedAt := 0, hasUsedResearchMode := true, page := 1 }] }
      [(5, ChatAction.ADD_MESSAGE "a"
          { id := "m1", content := "hi", type := .user, timestamp := 5 }),
       (6, ChatAction.DELETE_CHAT "b")]) := by
  refine ⟨⟨by decide, by decide⟩, ?_⟩
  exact c2_research_flag_monotone "a" _ _ (by decide) (by decide)

/-- Counterexample to C2 as stated: after `SET_RESEARCH_MODE_USED` the
chat with id `"a"` has the flag set, yet a later `LOAD_HISTORY` action
installs a chat with the same id and the flag unset. -/
theorem c2_counterexample :
    flagInvariant "a" (runActions initialState
      [(0, .CREATE_CHAT
          { id := "a", title := "t", messages := [], createdAt := 0,
            updatedAt := 0, hasUsedResearchMode := false, page := 1 }),
       (1, .SET_RESEARCH_MODE_USED "a")]) ∧
    ¬ flagInvariant "a" (runActions initialState
      [(0, .CREATE_CHAT
          { id := "a", title := "t", messages := [], createdAt := 0,
            updatedAt := 0, hasUsedResearchMode := false, page := 1 }),
       (1, .SET_RESEARCH_MODE_USED "a"),
       (2, .LOAD_HISTORY
          [{ id := "a", title := "reloaded", messages := [], createdAt := 2,
             updatedAt := 2, hasUsedResearchMode := false, page := 1 }])]) := by
  exact ⟨by decide, by decide⟩

/-! ## C4: `processCharacterTimestamps` word boundaries -/

/-- `split(/\s+/)` scanning a whitespace-free word followed by a single
space: the word is emitted and scanning continues after the space. -/
theorem splitWsAux_word_sep (t : List Char) :
    ∀ (w acc : List Char), (∀ c ∈ w, c.isWhitespace = false) →
      splitWsAux (w ++ ' ' :: t) acc = (acc.reverse ++ w) :: splitWsSkip t := by
  intro w
  induction w with
  | nil =>
    intro acc _
    simp [splitWsAux]
  | cons c w' ih =>
    intro acc hw
    have hc : c.isWhitespace = false := hw c (List.mem_cons_self c w')
    simp only [List.cons_append, splitWsAux, List.append_eq]
    rw [if_neg (by simp [hc])]
    rw [ih (c :: acc) (fun x hx => hw x (List.mem_cons_of_mem c hx))]
    simp

/-- `split(/\s+/)` scanning a trailing whitespace-free word. -/
theorem splitWsAux_word_end :
    ∀ (w acc : List Char), (∀ c ∈ w, c.isWhitespace = false) →
      splitWsAux w acc = [acc.reverse ++ w] := by
  intro w
  induction w with
  | nil => intro acc _; simp [splitWsAux]
  | cons c w' ih =>
    intro acc hw
    have hc : c.isWhitespace = false := hw c (List.mem_cons_self c w')
    simp only [splitWsAux]
    rw [if_neg (by simp [hc])]
    rw [ih (c :: acc) (fun x hx => hw x (List.mem_cons_of_mem c hx))]
    simp

/-- After a separator the run-skip stops at the first non-whitespace
char, continuing like a fresh scan. -/
theorem splitWsSkip_eq_aux (c : Char) (t : List Char)
    (hc : c.isWhitespace = false) :
    splitWsSkip (c :: t) = splitWsAux (c :: t) [] := by
  simp only [splitWsSkip, splitWsAux]
  rw [if_neg (by simp [hc]), if_neg (by simp [hc])]

/-- On a single-space join of nonempty whitespace-free words,
`split(/\s+/)` returns exactly the words. -/
theorem splitWsAux_join (ws : List (List Char)) :
    ws ≠ [] → (∀ w ∈ ws, w ≠ [] ∧ ∀ c ∈ w, c.isWhitespace = false) →
      splitWsAux (joinWords ws) [] = ws := by
  induction ws with
  | nil => intro h _; exact absurd rfl h
  | cons w rest ih =>
    intro _ hw
    cases rest with
    | nil =>
      show splitWsAux (joinWords [w]) [] = [w]
      rw [show joinWords [w] = w from rfl,
        splitWsAux_word_end w [] (hw w (List.mem_cons_self _ _)).2]
      simp
    | cons w2 rest2 =>
      have hjoin : joinWords (w :: w2 :: rest2)
          = w ++ ' ' :: joinWords (w2 :: rest2) := rfl
      rw [hjoin, splitWsAux_word_sep _ w [] (hw w (List.mem_cons_self _ _)).2]
      obtain ⟨hne2, hch2⟩ := hw w2 (by simp)
      cases w2 with
      | nil => exact absurd rfl hne2
      | cons c2 w2' =>
        have hc2 : c2.isWhitespace = false := hch2 c2 (by simp)
        have hhead : ∃ Z, joinWords ((c2 :: w2') :: rest2) = c2 :: Z := by
          cases rest2 with
          | nil => exact ⟨w2', rfl⟩
          | cons a b => exact ⟨w2' ++ ' ' :: joinWords (a :: b), rfl⟩
        obtain ⟨Z, hZ⟩ := hhead
        rw [hZ, splitWsSkip_eq_aux c2 Z hc2, ← hZ,
          ih (by simp) (fun x hx => hw x (List.mem_cons_of_mem w hx))]
        simp

/-- The claim-side tokenizer scanning a whitespace-free word followed by
a single space. -/
theorem scanWord_sep (t : List Char) :
    ∀ (u acc : List Char) (wsIdx j : Nat), (∀ c ∈ u, c.isWhitespace = false) →
      scanWord (u ++ ' ' :: t) acc wsIdx j
        = (acc.reverse ++ u, wsIdx) :: wordsWithIndex t (j + u.length + 1) := by
  intro u
  induction u with
  | nil =>
    intro acc wsIdx j _
    simp [scanWord]
  | cons c u' ih =>
    intro acc wsIdx j hu
    have hc : c.isWhitespace = false := hu c (List.mem_cons_self c u')
    simp only [List.cons_append, scanWord, List.append_eq]
    rw [if_neg (by simp [hc])]
    rw [ih (c :: acc) wsIdx (j + 1) (fun x hx => hu x (List.mem_cons_of_mem c hx))]
    have harith : j + 1 + u'.length + 1 = j + (c :: u').length + 1 := by
      simp [List.length_cons]
      omega
    rw [harith]
    simp

/-- The claim-side tokenizer scanning a trailing whitespace-free word. -/
theorem scanWord_end :
    ∀ (u acc : List Char) (wsIdx j : Nat), (∀ c ∈ u, c.isWhitespace = false) →
      scanWord u acc wsIdx j = [(acc.reverse ++ u, wsIdx)] := by
  intro u
  induction u with
  | nil => intro acc wsIdx j _; simp [scanWord]
  | cons c u' ih =>
    intro acc wsIdx j hu
    have hc : c.isWhitespace = false := hu c (List.mem_cons_self c u')
    simp only [scanWord]
    rw [if_neg (by simp [hc])]
    rw [ih (c :: acc) wsIdx (j + 1) (fun x hx => hu x (List.mem_cons_of_mem c hx))]
    simp

/-- On a single-space join, the claim-side tokenizer yields each word at
the cumulative boundary index. -/
theorem wordsWithIndex_join (ws : List (List Char)) :
    ∀ i : Nat, (∀ w ∈ ws, w ≠ [] ∧ ∀ c ∈ w, c.isWhitespace = false) →
      wordsWithIndex (joinWords ws) i = indexedWords ws i := by
  induction ws with
  | nil => intro i _; rfl
  | cons w rest ih =>
    intro i hw
    obtain ⟨hne, hch⟩ := hw w (List.mem_cons_self _ _)
    cases w with
    | nil => exact absurd rfl hne
    | cons c w' =>
      have hc : c.isWhitespace = false := hch c (List.mem_cons_self _ _)
      cases rest with
      | nil =>
        show wordsWithIndex (joinWords [c :: w']) i = _
        rw [show joinWords [c :: w'] = c :: w' from rfl]
        simp only [wordsWithIndex]
        rw [if_neg (by simp [hc]),
          scanWord_end w' [c] i (i + 1) (fun x hx => hch x (List.mem_cons_of_mem c hx))]
        simp [indexedWords]
      | cons w2 rest2 =>
        have hjoin : joinWords ((c :: w') :: w2 :: rest2)
            = c :: (w' ++ ' ' :: joinWords (w2 :: rest2)) := rfl
        rw [hjoin]
        simp only [wordsWithIndex]
        rw [if_neg (by simp [hc]),
          scanWord_sep _ w' [c] i (i + 1) (fun x hx => hch x (List.mem_cons_of_mem c hx)),
          ih _ (fun x hx => hw x (List.mem_cons_of_mem _ hx))]
        have harith : i + 1 + w'.length + 1 = i + (c :: w').length + 1 := by
          simp [List.length_cons]
          omega
        rw [harith]
        simp [indexedWords]

/-- `arr[i] || 0` equals the defaulting lookup (a stored `0` collapses to
the same value). -/
theorem jsIndexOrZero_eq_getD (l : List ℚ) (i : Nat) :
    jsIndexOrZero l i = (l.get? i).getD 0 := by
  unfold jsIndexOrZero
  cases l.get? i with
  | none => rfl
  | some v =>
    by_cases hv : (v == 0) = true
    · have hv0 : v = 0 := eq_of_beq hv
      simp [hv, hv0]
    · simp [hv]

/-- `arr[i] || d` at a nonnegative index over positive entries equals the
defaulting lookup. -/
theorem jsIndexOrDefault_pos (l : List ℚ) (hl : ∀ x ∈ l, 0 < x) (i : Nat)
    (d : ℚ) : jsIndexOrDefault l (i : Int) d = (l.get? i).getD d := by
  unfold jsIndexOrDefault
  rw [if_neg (by omega), Int.toNat_natCast]
  cases hg : l.get? i with
  | none => rfl
  | some v =>
    have hv : 0 < v := hl v (List.get?_mem hg)
    dsimp only
    rw [if_neg (by simpa using ne_of_gt hv)]
    rfl

/-- The code's per-word loop agrees with the boundary-indexed formula on
nonempty words with positive end times. -/
theorem processWords_eq_indexed (starts ends : List ℚ)
    (hpos : ∀ x ∈ ends, 0 < x) :
    ∀ (ws : List (List Char)) (i : Nat), (∀ w ∈ ws, w ≠ []) →
      processWords starts ends ws i
        = (indexedWords ws i).map (fun p =>
            let startTime := (starts.get? p.2).getD 0
            let endTime := (ends.get? (p.2 + p.1.length - 1)).getD (startTime + 1/2)
            { word := String.mk p.1, start := startTime, stop := endTime }) := by
  intro ws
  induction ws with
  | nil => intro i _; rfl
  | cons w rest ih =>
    intro i hw
    have hlen : 1 ≤ w.length :=
      List.length_pos.mpr (hw w (List.mem_cons_self _ _))
    simp only [processWords, indexedWords, List.map_cons]
    have hcast : (i : Int) + w.length - 1 = ((i + w.length - 1 : Nat) : Int) := by
      omega
    rw [hcast, jsIndexOrDefault_pos ends hpos (i + w.length - 1) _,
      jsIndexOrZero_eq_getD,
      ih (i + w.length + 1) (fun x hx => hw x (List.mem_cons_of_mem _ hx))]

/-- C4 (amended): on texts that are single-space joins of nonempty
whitespace-free words, with strictly positive character end times,
`processCharacterTimestamps` returns exactly one entry per word in text
order, with `start` the character-start time at the word's first
character index (default 0) and `end` the character-end time at its last
character index (default `start + 0.5`), indices taken from the word
boundaries of the original text.  (On texts with leading whitespace or
multi-character separators the `charIndex += word.length + 1` bookkeeping
diverges from the true boundaries, see the counterexample.) -/
theorem c4_process_character_timestamps (ws : List (List Char))
    (starts ends : List ℚ) (hne : ws ≠ [])
    (hw : ∀ w ∈ ws, w ≠ [] ∧ ∀ c ∈ w, c.isWhitespace = false)
    (hpos : ∀ x ∈ ends, 0 < x) :
    processCharacterTimestamps starts ends (String.mk (joinWords ws))
      = specWordTimestamps starts ends (String.mk (joinWords ws)) := by
  unfold processCharacterTimestamps specWordTimestamps jsSplitWhitespace
  have hdata : (String.mk (joinWords ws)).data = joinWords ws := rfl
  rw [hdata, splitWsAux_join ws hne hw, wordsWithIndex_join ws 0 hw,
    processWords_eq_indexed starts ends hpos ws 0 (fun w hww => (hw w hww).1)]

/-- Witness for C4 on the text `"hi yo"`. -/
theorem c4_process_character_timestamps_witness :
    ((([['h', 'i'], ['y', 'o']] : List (List Char)) ≠ [] ∧
      (∀ w ∈ ([['h', 'i'], ['y', 'o']] : List (List Char)),
        w ≠ [] ∧ ∀ c ∈ w, c.isWhitespace = false) ∧
      (∀ x ∈ ([1, 2, 3, 4, 5] : List ℚ), 0 < x))) ∧
    processCharacterTimestamps [0, 1/2, 1, 3/2, 2] [1, 2, 3, 4, 5]
        (String.mk (joinWords [['h', 'i'], ['y', 'o']]))
      = specWordTimestamps [0, 1/2, 1, 3/2, 2] [1, 2, 3, 4, 5]
        (String.mk (joinWords [['h', 'i'], ['y', 'o']])) := by
  refine ⟨⟨by decide, by decide, by decide⟩, ?_⟩
  exact c4_process_character_timestamps _ _ _ (by decide) (by decide) (by decide)

/-- Counterexample to C4 as stated: on `"ab  cd"` (two spaces) the code
reads the second word's times at character index 3 — a whitespace
position — while the word `"cd"` actually starts at index 4. -/
theorem c4_counterexample :
    processCharacterTimestamps [10, 20, 30, 40, 50, 60]
        [11, 21, 31, 41, 51, 61] "ab  cd"
      ≠ specWordTimestamps [10, 20, 30, 40, 50, 60]
        [11, 21, 31, 41, 51, 61] "ab  cd" := by decide

/-! ## C6: `FastBlockRenderer` fallback on malformed `<BLOCKS_DATA>` -/

/-- C6 (amended): when the no-dotall regex matches a `<BLOCKS_DATA>`
section (its body cannot span a newline) and the parse/render of the body
throws, the renderer does not propagate the exception: it renders the
cleaned content with the matched section removed; when the regex finds no
section the cleaned content is rendered as plain markdown unchanged.  (A
section whose body contains a newline is not matched by the regex, so it
falls into the latter case and is *not* removed — see the
counterexample.) -/
theorem c6_blocks_fallback (parseBlocks : String → Option (List Block))
    (ytParseOk : String → Bool) (content : String) :
    (∀ pre body post,
      findTag blocksOpenTag blocksCloseTag false
          (parseYouTubeCardsContent ytParseOk content).data
        = some (pre, body, post) →
      parseBlocks (String.mk body) = none →
      fastBlockRender parseBlocks ytParseOk content
        = .fallbackView (String.mk (pre ++ post))) ∧
    (findTag blocksOpenTag blocksCloseTag false
        (parseYouTubeCardsContent ytParseOk content).data = none →
      fastBlockRender parseBlocks ytParseOk content
        = .plainView (parseYouTubeCardsContent ytParseOk content)) := by
  constructor
  · intro pre body post hfind hparse
    simp only [fastBlockRender, hfind, hparse]
  · intro hfind
    simp only [fastBlockRender, hfind]

/-- Witness for C6: an unparseable newline-free section is removed and
the renderer falls back. -/
theorem c6_blocks_fallback_witness :
    (findTag blocksOpenTag blocksCloseTag false
        (parseYouTubeCardsContent (fun _ => true)
          "before <BLOCKS_DATA>oops</BLOCKS_DATA> after").data
      = some ("before ".data, "oops".data, " after".data) ∧
     (fun _ => (none : Option (List Block))) (String.mk "oops".data)
      = none) ∧
    fastBlockRender (fun _ => none) (fun _ => true)
        "before <BLOCKS_DATA>oops</BLOCKS_DATA> after"
      = .fallbackView (String.mk ("before ".data ++ " after".data)) := by
  refine ⟨⟨by decide, rfl⟩, ?_⟩
  exact (c6_blocks_fallback (fun _ => none) (fun _ => true)
    "before <BLOCKS_DATA>oops</BLOCKS_DATA> after").1
    "before ".data "oops".data " after".data (by decide) rfl

/-- Counterexample to C6 as stated: a textually present section whose
unparseable body contains a newline is not matched by the no-dotall
regex, so the renderer keeps the whole content (section included) instead
of removing the section. -/
theorem c6_counterexample :
    sectionPresent "<BLOCKS_DATA>[1,\n</BLOCKS_DATA>" = true ∧
    fastBlockRender (fun _ => none) (fun _ => true)
        "<BLOCKS_DATA>[1,\n</BLOCKS_DATA>"
      = .plainView "<BLOCKS_DATA>[1,\n</BLOCKS_DATA>" ∧
    RenderOutcome.plainView "<BLOCKS_DATA>[1,\n</BLOCKS_DATA>"
      ≠ .fallbackView "" := by
  exact ⟨by decide, by decide, by decide⟩

/-! ## C5: message-id shape lemmas -/

/-- Strings with equal character data are equal. -/
theorem string_data_injective (s t : String) (h : s.data = t.data) : s = t :=
  congrArg String.mk h

/-- A digit string is nonempty. -/
theorem isDigitString_ne_nil (t : String) (ht : isDigitString t = true) :
    t.data ≠ [] := by
  unfold isDigitString at ht
  rw [Bool.and_eq_true] at ht
  simpa using ht.1

/-- A digit string ends in a digit. -/
theorem isDigitString_getLast (t : String) (ht : isDigitString t = true) :
    ∃ c, t.data.getLast? = some c ∧ c.isDigit = true := by
  have hne := isDigitString_ne_nil t ht
  unfold isDigitString at ht
  rw [Bool.and_eq_true] at ht
  refine ⟨t.data.getLast hne, List.getLast?_eq_getLast _ hne, ?_⟩
  exact List.all_eq_true.mp ht.2 _ (List.getLast_mem hne)

/-- Character data of `userMsgId`. -/
theorem userMsgId_data (t : String) :
    (userMsgId t).data = "msg-".data ++ t.data := String.data_append ..

/-- Character data of `aiMsgId`. -/
theorem aiMsgId_data (t : String) :
    (aiMsgId t).data = ("msg-".data ++ t.data) ++ "-ai".data := by
  show (("msg-" ++ t) ++ "-ai").data = _
  rw [String.data_append, String.data_append]

/-- Character data of `histUserMsgId`. -/
theorem histUserMsgId_data (oid : String) :
    (histUserMsgId oid).data = oid.data ++ "-user".data := String.data_append ..

/-- Character data of `histAiMsgId`. -/
theorem histAiMsgId_data (oid : String) :
    (histAiMsgId oid).data = oid.data ++ "-ai".data := String.data_append ..

/-- A user-message id ends in the digit the timestamp ends in. -/
theorem userMsgId_getLast (t : String) (ht : isDigitString t = true) :
    ∃ c, (userMsgId t).data.getLast? = some c ∧ c.isDigit = true := by
  obtain ⟨c, hc, hcd⟩ := isDigitString_getLast t ht
  refine ⟨c, ?_, hcd⟩
  rw [userMsgId_data, List.getLast?_append_of_ne_nil _ (isDigitString_ne_nil t ht)]
  exact hc

/-- An AI-message id ends in `'i'`. -/
theorem aiMsgId_getLast (t : String) :
    (aiMsgId t).data.getLast? = some 'i' := by
  rw [aiMsgId_data, List.getLast?_append_of_ne_nil _ (by decide : "-ai".data ≠ [])]
  decide

/-- A history user-message id ends in `'r'`. -/
theorem histUserMsgId_getLast (oid : String) :
    (histUserMsgId oid).data.getLast? = some 'r' := by
  rw [histUserMsgId_data, List.getLast?_append_of_ne_nil _ (by decide : "-user".data ≠ [])]
  decide

/-- A history AI-message id ends in `'i'`. -/
theorem histAiMsgId_getLast (oid : String) :
    (histAiMsgId oid).data.getLast? = some 'i' := by
  rw [histAiMsgId_data, List.getLast?_append_of_ne_nil _ (by decide : "-ai".data ≠ [])]
  decide

/-- `userMsgId` is injective. -/
theorem userMsgId_inj (t t' : String) (h : userMsgId t = userMsgId t') :
    t = t' := by
  have hd := congrArg String.data h
  rw [userMsgId_data, userMsgId_data] at hd
  exact string_data_injective _ _ (List.append_cancel_left hd)

/-- `aiMsgId` is injective. -/
theorem aiMsgId_inj (t t' : String) (h : aiMsgId t = aiMsgId t') : t = t' := by
  have hd := congrArg String.data h
  rw [aiMsgId_data, aiMsgId_data] at hd
  exact string_data_injective _ _
    (List.append_cancel_left (List.append_cancel_right hd))

/-- `histUserMsgId` is injective. -/
theorem histUserMsgId_inj (oid oid' : String)
    (h : histUserMsgId oid = histUserMsgId oid') : oid = oid' := by
  have hd := congrArg String.data h
  rw [histUserMsgId_data, histUserMsgId_data] at hd
  exact string_data_injective _ _ (List.append_cancel_right hd)

/-- `histAiMsgId` is injective. -/
theorem histAiMsgId_inj (oid oid' : String)
    (h : histAiMsgId oid = histAiMsgId oid') : oid = oid' := by
  have hd := congrArg String.data h
  rw [histAiMsgId_data, histAiMsgId_data] at hd
  exact string_data_injective _ _ (List.append_cancel_right hd)

/-- Ids with different last characters differ. -/
theorem ne_of_getLast_ne (s t : String) (c d : Char)
    (hs : s.data.getLast? = some c) (ht : t.data.getLast? = some d)
    (hcd : c ≠ d) : s ≠ t := by
  intro h
  rw [h, ht] at hs
  exact hcd (Option.some.inj hs).symm

/-- A user-message id (digit last) is never an AI-message id (`'i'` last). -/
theorem userMsgId_ne_aiMsgId (t t' : String) (ht : isDigitString t = true) :
    userMsgId t ≠ aiMsgId t' := by
  obtain ⟨c, hc, hcd⟩ := userMsgId_getLast t ht
  refine ne_of_getLast_ne _ _ c 'i' hc (aiMsgId_getLast t') ?_
  intro h
  rw [h] at hcd
  exact absurd hcd (by decide)

/-- A history user-message id (`'r'` last) is never a user-message id. -/
theorem histUserMsgId_ne_userMsgId (oid t : String)
    (ht : isDigitString t = true) : histUserMsgId oid ≠ userMsgId t := by
  obtain ⟨c, hc, hcd⟩ := userMsgId_getLast t ht
  refine ne_of_getLast_ne _ _ 'r' c (histUserMsgId_getLast oid) hc ?_
  intro h
  rw [← h] at hcd
  exact absurd hcd (by decide)

/-- A history user-message id is never an AI-message id. -/
theorem histUserMsgId_ne_aiMsgId (oid t : String) :
    histUserMsgId oid ≠ aiMsgId t :=
  ne_of_getLast_ne _ _ 'r' 'i' (histUserMsgId_getLast oid)
    (aiMsgId_getLast t) (by decide)

/-- A history user-message id is never a history AI-message id. -/
theorem histUserMsgId_ne_histAiMsgId (oid oid' : String) :
    histUserMsgId oid ≠ histAiMsgId oid' :=
  ne_of_getLast_ne _ _ 'r' 'i' (histUserMsgId_getLast oid)
    (histAiMsgId_getLast oid') (by decide)

/-- A history AI-message id (`'i'` last) is never a user-message id. -/
theorem histAiMsgId_ne_userMsgId (oid t : String)
    (ht : isDigitString t = true) : histAiMsgId oid ≠ userMsgId t := by
  obtain ⟨c, hc, hcd⟩ := userMsgId_getLast t ht
  refine ne_of_getLast_ne _ _ 'i' c (histAiMsgId_getLast oid) hc ?_
  intro h
  rw [← h] at hcd
  exact absurd hcd (by decide)

/-- Every list is a prefix of itself extended. -/
theorem isPrefixOf_append_self (l m : List Char) :
    l.isPrefixOf (l ++ m) = true := by
  induction l with
  | nil => simp [List.isPrefixOf]
  | cons c t ih => simp [List.isPrefixOf, ih]

/-- A history AI-message id built from a non-`msg-`-prefixed `_id` is
never an AI-message id. -/
theorem histAiMsgId_ne_aiMsgId (oid t : String)
    (hoid : ("msg-".data.isPrefixOf oid.data) = false) :
    histAiMsgId oid ≠ aiMsgId t := by
  intro h
  have hd := congrArg String.data h
  rw [histAiMsgId_data, aiMsgId_data] at hd
  have hoe : oid.data = "msg-".data ++ t.data := List.append_cancel_right hd
  rw [hoe, isPrefixOf_append_self] at hoid
  simp at hoid

/-! ## C5: freshness of generated ids against an operation list -/

/-- A fresh user-message id does not occur among the `msg-…` ids of an
operation list that does not use its timestamp for a user message. -/
theorem userMsgId_not_mem (t : String) (ht : isDigitString t = true) :
    ∀ ops : List AddOp, (∀ op ∈ ops, opShapeOk op = true) →
      t ∉ userTs ops → userMsgId t ∉ opsMsgIds ops := by
  intro ops
  induction ops with
  | nil => intro _ _ h; simp [opsMsgIds] at h
  | cons op rest ih =>
    intro hshape hts hmem
    rw [opsMsgIds] at hmem
    rcases List.mem_append.mp hmem with hm | hm
    · cases op with
      | createChat t' now => simp [opMsgIds] at hm
      | loadHistory pages now => simp [opMsgIds] at hm
      | sendUserMsg c t' now content mode page =>
        simp [opMsgIds] at hm
        have := userMsgId_inj t t' hm
        subst this
        exact hts (by simp [userTs])
      | addAiMsg c t' now content mode page =>
        simp [opMsgIds] at hm
        exact userMsgId_ne_aiMsgId t t' ht hm
    · refine ih (fun o ho => hshape o (List.mem_cons_of_mem _ ho)) ?_ hm
      intro hts'
      apply hts
      cases op <;> simp [userTs, hts']

/-- A fresh AI-message id does not occur among the `msg-…` ids of an
operation list that does not use its timestamp for an AI message. -/
theorem aiMsgId_not_mem (t : String) :
    ∀ ops : List AddOp, (∀ op ∈ ops, opShapeOk op = true) →
      t ∉ aiTs ops → aiMsgId t ∉ opsMsgIds ops := by
  intro ops
  induction ops with
  | nil => intro _ _ h; simp [opsMsgIds] at h
  | cons op rest ih =>
    intro hshape hts hmem
    rw [opsMsgIds] at hmem
    rcases List.mem_append.mp hmem with hm | hm
    · cases op with
      | createChat t' now => simp [opMsgIds] at hm
      | loadHistory pages now => simp [opMsgIds] at hm
      | sendUserMsg c t' now content mode page =>
        simp [opMsgIds] at hm
        have hdig : isDigitString t' = true := by
          have := hshape _ (List.mem_cons_self _ _)
          simpa [opShapeOk] using this
        exact userMsgId_ne_aiMsgId t' t hdig hm.symm
      | addAiMsg c t' now content mode page =>
        simp [opMsgIds] at hm
        have := aiMsgId_inj t t' hm
        subst this
        exact hts (by simp [aiTs])
    · refine ih (fun o ho => hshape o (List.mem_cons_of_mem _ ho)) ?_ hm
      intro hts'
      apply hts
      cases op <;> simp [aiTs, hts']

/-- A history user-message id never occurs among the `msg-…` ids of a
shape-correct operation list. -/
theorem histUserMsgId_not_mem (oid : String) :
    ∀ ops : List AddOp, (∀ op ∈ ops, opShapeOk op = true) →
      histUserMsgId oid ∉ opsMsgIds ops := by
  intro ops
  induction ops with
  | nil => intro _ h; simp [opsMsgIds] at h
  | cons op rest ih =>
    intro hshape hmem
    rw [opsMsgIds] at hmem
    rcases List.mem_append.mp hmem with hm | hm
    · cases op with
      | createChat t' now => simp [opMsgIds] at hm
      | loadHistory pages now => simp [opMsgIds] at hm
      | sendUserMsg c t' now content mode page =>
        simp [opMsgIds] at hm
        have hdig : isDigitString t' = true := by
          have := hshape _ (List.mem_cons_self _ _)
          simpa [opShapeOk] using this
        exact histUserMsgId_ne_userMsgId oid t' hdig hm
      | addAiMsg c t' now content mode page =>
        simp [opMsgIds] at hm
        exact histUserMsgId_ne_aiMsgId oid t' hm
    · exact ih (fun o ho => hshape o (List.mem_cons_of_mem _ ho)) hm

/-- A history AI-message id from a non-`msg-`-prefixed `_id` never occurs
among the `msg-…` ids of a shape-correct operation list. -/
theorem histAiMsgId_not_mem (oid : String)
    (hoid : ("msg-".data.isPrefixOf oid.data) = false) :
    ∀ ops : List AddOp, (∀ op ∈ ops, opShapeOk op = true) →
      histAiMsgId oid ∉ opsMsgIds ops := by
  intro ops
  induction ops with
  | nil => intro _ h; simp [opsMsgIds] at h
  | cons op rest ih =>
    intro hshape hmem
    rw [opsMsgIds] at hmem
    rcases List.mem_append.mp hmem with hm | hm
    · cases op with
      | createChat t' now => simp [opMsgIds] at hm
      | loadHistory pages now => simp [opMsgIds] at hm
      | sendUserMsg c t' now content mode page =>
        simp [opMsgIds] at hm
        have hdig : isDigitString t' = true := by
          have := hshape _ (List.mem_cons_self _ _)
          simpa [opShapeOk] using this
        exact histAiMsgId_ne_userMsgId oid t' hdig hm
      | addAiMsg c t' now content mode page =>
        simp [opMsgIds] at hm
        exact histAiMsgId_ne_aiMsgId oid t' hoid hm
    · exact ih (fun o ho => hshape o (List.mem_cons_of_mem _ ho)) hm

/-! ## C5: the sort model and history-page id distinctness -/

/-- Inserting permutes to consing. -/
theorem insertSorted_perm (le : α → α → Bool) (x : α) :
    ∀ l : List α, (insertSorted le x l).Perm (x :: l) := by
  intro l
  induction l with
  | nil => exact List.Perm.refl _
  | cons y ys ih =>
    unfold insertSorted
    by_cases h : le x y = true
    · rw [if_pos h]
    · rw [if_neg h]
      exact (ih.cons y).trans (List.Perm.swap x y ys)

/-- The comparator sort is a permutation. -/
theorem sortByLe_perm (le : α → α → Bool) :
    ∀ l : List α, (sortByLe le l).Perm l := by
  intro l
  induction l with
  | nil => exact List.Perm.refl _
  | cons x xs ih =>
    show (insertSorted le x (sortByLe le xs)).Perm (x :: xs)
    exact (insertSorted_perm le x _).trans (ih.cons x)

/-- Every message of a history row carries one of the two row ids. -/
theorem histRowMessages_id_shape (p : HistPage) (r : HistRow) (m : Message)
    (hm : m ∈ histRowMessages p r) :
    m.id = histUserMsgId r.oid ∨ m.id = histAiMsgId r.oid := by
  unfold histRowMessages at hm
  cases hq : r.query <;> cases hr : r.response <;> rw [hq, hr] at hm <;>
    simp at hm
  · exact Or.inr (by rw [hm])
  · exact Or.inl (by rw [hm])
  · rcases hm with rfl | rfl
    · exact Or.inl rfl
    · exact Or.inr rfl

/-- The ids contributed by the rows of one history page are pairwise
distinct when the rows' `_id`s are. -/
theorem histPage_ids_nodup (p : HistPage) :
    ∀ rows : List HistRow, (rows.map (fun r => r.oid)).Nodup →
      ((rows.flatMap (histRowMessages p)).map Message.id).Nodup := by
  intro rows
  induction rows with
  | nil => intro _; simp
  | cons r rest ih =>
    intro hnd
    rw [List.map_cons, List.nodup_cons] at hnd
    rw [List.flatMap_cons, List.map_append, List.nodup_append]
    refine ⟨?_, ih hnd.2, ?_⟩
    · unfold histRowMessages
      cases r.query <;> cases r.response <;>
        simp [histUserMsgId_ne_histAiMsgId r.oid r.oid]
    · intro a ha hb
      rcases List.mem_map.mp ha with ⟨m, hm, rfl⟩
      rcases List.mem_map.mp hb with ⟨m', hm', heq⟩
      rcases List.mem_flatMap.mp hm' with ⟨r', hr', hmr'⟩
      have hne : r.oid ≠ r'.oid := by
        intro h
        exact hnd.1 (List.mem_map.mpr ⟨r', hr', h.symm⟩)
      rcases histRowMessages_id_shape p r m hm with h1 | h1 <;>
        rcases histRowMessages_id_shape p r' m' hmr' with h2 | h2 <;>
        rw [h1] at heq <;> rw [h2] at heq
      · exact hne (histUserMsgId_inj _ _ heq.symm)
      · exact histUserMsgId_ne_histAiMsgId r.oid r'.oid heq.symm
      · exact histUserMsgId_ne_histAiMsgId r'.oid r.oid heq
      · exact hne (histAiMsgId_inj _ _ heq.symm)

/-! ## C5: the induction over operations -/

/-- `ADD_MESSAGE` with a fresh id keeps every chat's ids distinct and
inside the allowed set. -/
theorem addMessage_preserves (s : ChatState) (now : Nat) (chatId : String)
    (msg : Message) (S : List String)
    (hinv : ∀ chat ∈ s.chats, (chat.messages.map Message.id).Nodup ∧
      ∀ m ∈ chat.messages, m.id ∉ S ∧ m.id ≠ msg.id)
    (hfresh : msg.id ∉ S) :
    ∀ chat ∈ (chatReducer now s (.ADD_MESSAGE chatId msg)).chats,
      (chat.messages.map Message.id).Nodup ∧
        ∀ m ∈ chat.messages, m.id ∉ S := by
  intro chat hc
  rcases List.mem_map.mp hc with ⟨c₀, hc₀, rfl⟩
  obtain ⟨hnd, hids⟩ := hinv c₀ hc₀
  by_cases hcid : (c₀.id == chatId) = true
  · rw [if_pos hcid]
    refine ⟨?_, ?_⟩
    · show ((c₀.messages ++ [msg]).map Message.id).Nodup
      rw [List.map_append, List.nodup_append]
      refine ⟨hnd, List.nodup_singleton _, ?_⟩
      intro a ha hb
      rcases List.mem_map.mp ha with ⟨m, hm, rfl⟩
      simp at hb
      exact (hids m hm).2 hb
    · intro m hm
      rcases List.mem_append.mp hm with hm' | hm'
      · exact (hids m hm').1
      · have hmm : m = msg := by simpa using hm'
        rw [hmm]
        exact hfresh
  · rw [if_neg hcid]
    exact ⟨hnd, fun m hm => (hids m hm).1⟩

/-- Dropping the head operation keeps the user timestamps distinct. -/
theorem userTs_rest_nodup (op : AddOp) (rest : List AddOp)
    (h : (userTs (op :: rest)).Nodup) : (userTs rest).Nodup := by
  cases op with
  | sendUserMsg c t now content mode page => exact (List.nodup_cons.mp h).2
  | createChat t now => exact h
  | addAiMsg c t now content mode page => exact h
  | loadHistory pages now => exact h

/-- Dropping the head operation keeps the AI timestamps distinct. -/
theorem aiTs_rest_nodup (op : AddOp) (rest : List AddOp)
    (h : (aiTs (op :: rest)).Nodup) : (aiTs rest).Nodup := by
  cases op with
  | sendUserMsg c t now content mode page => exact h
  | createChat t now => exact h
  | addAiMsg c t now content mode page => exact (List.nodup_cons.mp h).2
  | loadHistory pages now => exact h

/-- `loadChatHistory` either installs the built page chats or leaves the
state unchanged (no valid page). -/
theorem runAddOp_loadHistory_cases (s : ChatState) (pages : List HistPage)
    (now : Nat) :
    (runAddOp s (.loadHistory pages now)).chats = buildHistoryChats now pages ∨
      runAddOp s (.loadHistory pages now) = s := by
  unfold runAddOp
  dsimp only
  by_cases hE : (!(buildHistoryChats now pages).isEmpty) = true
  · left
    rw [if_pos hE]
    rfl
  · right
    rw [if_neg hE]

/-- One operation preserves the id invariant relative to the remaining
operations. -/
theorem runAddOp_msgInv (op : AddOp) (rest : List AddOp) (s : ChatState)
    (hshape : ∀ o ∈ op :: rest, opShapeOk o = true)
    (hu : (userTs (op :: rest)).Nodup) (ha : (aiTs (op :: rest)).Nodup)
    (hinv : msgInv (op :: rest) s) : msgInv rest (runAddOp s op) := by
  have hrest_shape : ∀ o ∈ rest, opShapeOk o = true :=
    fun o ho => hshape o (List.mem_cons_of_mem _ ho)
  cases op with
  | createChat t now =>
    intro chat hc
    rcases List.mem_cons.mp hc with rfl | hc''
    · exact ⟨by simp, by simp⟩
    · obtain ⟨hnd, hids⟩ := hinv chat hc''
      refine ⟨hnd, fun m hm => ?_⟩
      have hmid := hids m hm
      rw [opsMsgIds] at hmid
      simpa [opMsgIds] using hmid
  | sendUserMsg c t now content mode page =>
    have hdig : isDigitString t = true := by
      simpa [opShapeOk] using hshape _ (List.mem_cons_self _ _)
    refine addMessage_preserves s now c _ (opsMsgIds rest) ?_ ?_
    · intro chat hc
      obtain ⟨hnd, hids⟩ := hinv chat hc
      refine ⟨hnd, fun m hm => ?_⟩
      have hmid := hids m hm
      rw [opsMsgIds] at hmid
      simp [opMsgIds] at hmid
      exact ⟨hmid.2, hmid.1⟩
    · exact userMsgId_not_mem t hdig rest hrest_shape (List.nodup_cons.mp hu).1
  | addAiMsg c t now content mode page =>
    refine addMessage_preserves s now c _ (opsMsgIds rest) ?_ ?_
    · intro chat hc
      obtain ⟨hnd, hids⟩ := hinv chat hc
      refine ⟨hnd, fun m hm => ?_⟩
      have hmid := hids m hm
      rw [opsMsgIds] at hmid
      simp [opMsgIds] at hmid
      exact ⟨hmid.2, hmid.1⟩
    · exact aiMsgId_not_mem t rest hrest_shape (List.nodup_cons.mp ha).1
  | loadHistory pages now =>
    rcases runAddOp_loadHistory_cases s pages now with hch | hid
    · intro chat hc
      rw [hch] at hc
      have hmem : chat ∈ (pages.filter (fun p => !p.rows.isEmpty)).map
          (buildHistoryChat now) := (sortByLe_perm _ _).mem_iff.mp hc
      rcases List.mem_map.mp hmem with ⟨p, hp, rfl⟩
      have hpp : p ∈ pages := List.mem_of_mem_filter hp
      have hop := hshape _ (List.mem_cons_self _ _)
      simp only [opShapeOk, List.all_eq_true] at hop
      have hpage := hop p hpp
      rw [Bool.and_eq_true] at hpage
      have hnodup : (p.rows.map (fun r => r.oid)).Nodup :=
        of_decide_eq_true hpage.1
      have hpref : ∀ r ∈ p.rows, ("msg-".data.isPrefixOf r.oid.data) = false := by
        have hall := hpage.2
        rw [List.all_eq_true] at hall
        intro r hr
        simpa using hall r hr
      have hmsgs : (buildHistoryChat now p).messages
          = sortByLe (fun a b => decide (a.timestamp ≤ b.timestamp))
              (p.rows.flatMap (histRowMessages p)) := rfl
      constructor
      · rw [hmsgs]
        have hperm := (sortByLe_perm
          (fun a b => decide (a.timestamp ≤ b.timestamp))
          (p.rows.flatMap (histRowMessages p))).map Message.id
        exact hperm.nodup_iff.mpr (histPage_ids_nodup p p.rows hnodup)
      · intro m hm
        rw [hmsgs] at hm
        have hm' : m ∈ p.rows.flatMap (histRowMessages p) :=
          (sortByLe_perm _ _).mem_iff.mp hm
        rcases List.mem_flatMap.mp hm' with ⟨r, hr, hmr⟩
        rcases histRowMessages_id_shape p r m hmr with h | h <;> rw [h]
        · exact histUserMsgId_not_mem r.oid rest hrest_shape
        · exact histAiMsgId_not_mem r.oid (hpref r hr) rest hrest_shape
    · rw [hid]
      intro chat hc
      obtain ⟨hnd, hids⟩ := hinv chat hc
      refine ⟨hnd, fun m hm => ?_⟩
      have hmid := hids m hm
      rw [opsMsgIds] at hmid
      simpa [opMsgIds] using hmid

/-- Running shape-correct operations with distinct timestamps from a
state satisfying the invariant keeps every chat's message ids distinct. -/
theorem runAddOps_nodup (ops : List AddOp) :
    ∀ s : ChatState, (∀ op ∈ ops, opShapeOk op = true) →
      (userTs ops).Nodup → (aiTs ops).Nodup → msgInv ops s →
      ∀ chat ∈ (runAddOps s ops).chats,
        (chat.messages.map Message.id).Nodup := by
  induction ops with
  | nil => intro s _ _ _ hinv chat hc; exact (hinv chat hc).1
  | cons op rest ih =>
    intro s hshape hu ha hinv
    exact ih (runAddOp s op)
      (fun o ho => hshape o (List.mem_cons_of_mem _ ho))
      (userTs_rest_nodup op rest hu) (aiTs_rest_nodup op rest ha)
      (runAddOp_msgInv op rest s hshape hu ha hinv)

/-- C5 (amended): across every sequence of message-creating operations
(chat creation, user send, AI/error/placeholder message creation, history
load) in which distinct user sends and distinct AI-message creations
observe distinct `Date.now()` values, and loaded history rows have
distinct non-`msg-`-prefixed `_id`s within each page, every chat in the
store has pairwise-distinct message ids.  (The reducer itself never
deduplicates: equal timestamps yield equal ids, see the counterexample.) -/
theorem c5_message_ids_distinct (ops : List AddOp)
    (hshape : ∀ op ∈ ops, opShapeOk op = true)
    (hu : (userTs ops).Nodup) (ha : (aiTs ops).Nodup) :
    ∀ chat ∈ (runAddOps initialState ops).chats,
      (chat.messages.map Message.id).Nodup :=
  runAddOps_nodup ops initialState hshape hu ha
    (by intro chat hc; exact absurd hc (List.not_mem_nil chat))

/-- Witness for C5 on a concrete operation sequence exercising chat
creation, both message kinds, a history load and a post-history send. -/
theorem c5_message_ids_distinct_witness :
    ((∀ op ∈ sampleOps, opShapeOk op = true) ∧
      (userTs sampleOps).Nodup ∧ (aiTs sampleOps).Nodup) ∧
    ∀ chat ∈ (runAddOps initialState sampleOps).chats,
      (chat.messages.map Message.id).Nodup := by
  refine ⟨⟨by decide, by decide, by decide⟩, ?_⟩
  exact c5_message_ids_distinct sampleOps (by decide) (by decide) (by decide)

/-- Counterexample to C5 as stated: two user sends observing the same
`Date.now()` millisecond generate the same id `msg-5`, and the reducer
appends both without deduplication. -/
theorem c5_counterexample :
    ¬ (∀ chat ∈ (runAddOps initialState [AddOp.createChat "100" 100,
        AddOp.sendUserMsg "chat-100" "5" 101 "first" none 1,
        AddOp.sendUserMsg "chat-100" "5" 102 "second" none 1]).chats,
      (chat.messages.map Message.id).Nodup) := by decide

end JumpFront
